import Mathlib

/-!
# Cursor codec and query composition of go-keyset

A shallow embedding of the cursor codec (`cursor.go`), of the order and
direction algebra (`page.go`, `sql.go`), of the raw SQL composers
(`ksql/ksql.go`), of the result normaliser (`result.go`) and of the GORM scope
`PageByTimeAndID` (`kgorm/pagination.go`) of package `keyset`.

Conventions of the embedding

* A Go `string` and a Go `[]byte` are both modelled as `List Nat`, one element
  per byte; a genuine byte is `< 256`.
* A Go `int64` is an `Int` in the range `[-2^63, 2^63)` (`IsInt64`); a Go
  `uint64` is a `Nat` below `2^64`.  Conversions and overflowing arithmetic
  are written with explicit reductions modulo `2^64`.
* A Go call that returns `(value, error)` and may also panic is modelled by
  `Outcome`; a call that returns a value or panics is modelled by `Option`,
  `none` being the panic.
* The shifts and ors of the Go code act on disjoint bit ranges of bytes and
  sextets; they are written as multiplications, divisions and sums.
-/

namespace Keyset

/-! ## Results of fallible calls -/

/-- Result of a Go call returning `(value, error)`: a value, an error, or a
run-time panic. -/
inductive Outcome (ε α : Type) where
  | ok (v : α)
  | error (e : ε)
  | panic
  deriving DecidableEq, Repr

/-! ## Machine integers -/

/-- The values of Go's `int64`. -/
def IsInt64 (v : Int) : Prop := -9223372036854775808 ≤ v ∧ v < 9223372036854775808

instance (v : Int) : Decidable (IsInt64 v) := by
  unfold IsInt64; infer_instance

/-- Go conversion `uint64(v)` of an `int64`: the two's-complement bit pattern. -/
def toUint64 (v : Int) : Nat := (v % 18446744073709551616).toNat

/-- Go conversion `int64(u)` of a `uint64`. -/
def toInt64 (u : Nat) : Int :=
  if u % 18446744073709551616 < 9223372036854775808 then
    ((u % 18446744073709551616 : Nat) : Int)
  else ((u % 18446744073709551616 : Nat) : Int) - 18446744073709551616

/-- Wrap-around of `int64` arithmetic: the representative of `x` modulo `2^64`
in `[-2^63, 2^63)`. -/
def wrapInt64 (x : Int) : Int :=
  (x + 9223372036854775808) % 18446744073709551616 - 9223372036854775808

/-! ## `encoding/binary`, big endian -/

/-- Model of `binary.BigEndian.PutUint64` on an 8-byte buffer: the bytes
`byte(v >> 56), byte(v >> 48), ..., byte(v)`. -/
def PutUint64 (v : Nat) : List Nat :=
  [v / 72057594037927936 % 256, v / 281474976710656 % 256, v / 1099511627776 % 256,
   v / 4294967296 % 256, v / 16777216 % 256, v / 65536 % 256, v / 256 % 256, v % 256]

/-- Model of `binary.BigEndian.Uint64`: `none` is the index-out-of-range panic
of the bounds check `_ = b[7]`. -/
def Uint64 (b : List Nat) : Option Nat :=
  if b.length < 8 then none
  else some (b.getD 7 0 + b.getD 6 0 * 256 + b.getD 5 0 * 65536 + b.getD 4 0 * 16777216
    + b.getD 3 0 * 4294967296 + b.getD 2 0 * 1099511627776
    + b.getD 1 0 * 281474976710656 + b.getD 0 0 * 72057594037927936)

/-! ## `encoding/base64`, `RawURLEncoding` -/

/-- The URL-safe alphabet `encodeURL` of `encoding/base64`. -/
def encodeURL : List Nat :=
  "ABCDEFGHIJKLMNOPQRSTUVWXYZabcdefghijklmnopqrstuvwxyz0123456789-_".toList.map Char.toNat

/-- The table lookup `enc.encode[v]`. -/
def encodeChar (v : Nat) : Nat := encodeURL.getD v 0

/-- The table lookup `enc.decodeMap[c]`: the index of `c` in the alphabet,
`none` standing for the filler `0xff`. -/
def decodeMap (c : Nat) : Option Nat :=
  if encodeURL.indexOf c < 64 then some (encodeURL.indexOf c) else none

/-- Model of `(*Encoding).EncodeToString` for `RawURLEncoding` (no padding):
three bytes give four characters, a rest of two bytes gives three characters
and a rest of one byte gives two. -/
def encodeToString : List Nat → List Nat
  | a :: b :: c :: rest =>
      encodeChar ((a * 65536 + b * 256 + c) / 262144 % 64) ::
      encodeChar ((a * 65536 + b * 256 + c) / 4096 % 64) ::
      encodeChar ((a * 65536 + b * 256 + c) / 64 % 64) ::
      encodeChar ((a * 65536 + b * 256 + c) % 64) :: encodeToString rest
  | [a, b] =>
      [encodeChar ((a * 65536 + b * 256) / 262144 % 64),
       encodeChar ((a * 65536 + b * 256) / 4096 % 64),
       encodeChar ((a * 65536 + b * 256) / 64 % 64)]
  | [a] =>
      [encodeChar (a * 65536 / 262144 % 64), encodeChar (a * 65536 / 4096 % 64)]
  | [] => []

/-- The error `base64.CorruptInputError`, carrying the offset of the input
byte at which decoding stopped. -/
structure CorruptInputError where
  offset : Nat
  deriving DecidableEq, Repr

/-- Bytes produced from one quantum of `dbuf.length` sextets (2, 3 or 4): with
`val = dbuf[0]<<18 | dbuf[1]<<12 | dbuf[2]<<6 | dbuf[3]`, the first
`dlen - 1` of `byte(val>>16), byte(val>>8), byte(val)`.  The low bits of a short
quantum are dropped unchecked: `RawURLEncoding` is not a strict encoding. -/
def quantumBytes (dbuf : List Nat) : List Nat :=
  let val := dbuf.getD 0 0 * 262144 + dbuf.getD 1 0 * 4096 + dbuf.getD 2 0 * 64 + dbuf.getD 3 0
  [val / 65536 % 256, val / 256 % 256, val % 256].take (dbuf.length - 1)

/-- Model of the decoding loop of `(*Encoding).Decode` with `decodeQuantum`
for an encoding without padding.  `si` is the offset of the next input byte and
`dbuf` holds the sextets of the quantum read so far.  Bytes `'\n'` (10) and
`'\r'` (13) are skipped, any other byte outside the alphabet is corrupt input,
and so is an input ending after the first sextet of a quantum. -/
def decodeFrom : List Nat → Nat → List Nat → Except CorruptInputError (List Nat)
  | [], si, dbuf =>
      match dbuf.length with
      | 0 => .ok []
      | 1 => .error ⟨si - 1⟩
      | _ => .ok (quantumBytes dbuf)
  | c :: rest, si, dbuf =>
      match decodeMap c with
      | some out =>
          if dbuf.length = 3 then
            match decodeFrom rest (si + 1) [] with
            | .ok tail => .ok (quantumBytes (dbuf ++ [out]) ++ tail)
            | .error e => .error e
          else decodeFrom rest (si + 1) (dbuf ++ [out])
      | none =>
          if c = 10 ∨ c = 13 then decodeFrom rest (si + 1) dbuf
          else .error ⟨si⟩

/-- Model of `base64.RawURLEncoding.DecodeString`. -/
def decodeString (s : List Nat) : Except CorruptInputError (List Nat) :=
  decodeFrom s 0 []

/-! ## Errors of package `keyset` -/

/-- Errors returned by the cursor decoders: the sentinel `ErrCursorLength`, and
`fmt.Errorf("keyset: decode cursor: %w", err)` wrapping a base64 error. -/
inductive Error where
  | ErrCursorLength
  | decodeCursor (err : CorruptInputError)
  deriving DecidableEq, Repr

/-! ## Integer cursor -/

/-- Embedding of `EncodeInt64Cursor`. -/
def EncodeInt64Cursor (v : Int) : List Nat :=
  encodeToString (PutUint64 (toUint64 v))

/-- Embedding of `DecodeInt64Cursor`. -/
def DecodeInt64Cursor (s : List Nat) : Outcome Error Int :=
  match decodeString s with
  | .error err => .error (.decodeCursor err)
  | .ok b =>
      if b.length ≠ 8 then .error .ErrCursorLength
      else
        match Uint64 b with
        | none => .panic
        | some u => .ok (toInt64 u)

/-! ## Time values -/

/-- The location of a `time.Time`: UTC, the local zone, or some other zone. -/
inductive Location where
  | UTC
  | Local
  | zone (name : String) (offset : Int)
  deriving DecidableEq, Repr

/-- A `time.Time` through its accessors: `sec` is `t.sec()`, the seconds since
January 1 of year 1, 00:00:00 UTC (an `int64`); `nsec` is `t.nsec()`, the
nanoseconds within that second; `loc` is the location; `mono` is the
monotonic clock reading when the value carries one.  The zero `Time` has
`sec = 0`, `nsec = 0`. -/
structure Time where
  sec : Int
  nsec : Nat
  loc : Location
  mono : Option Int
  deriving DecidableEq, Repr

/-- A well-formed `Time`: `sec` is an `int64` and `nsec` lies in
`[0, 999999999]`. -/
def Time.WF (t : Time) : Prop := IsInt64 t.sec ∧ t.nsec < 1000000000

instance (t : Time) : Decidable t.WF := by
  unfold Time.WF; infer_instance

/-- The constant `unixToInternal` of package `time`: seconds from year 1 to
1970. -/
def unixToInternal : Int := (1969 * 365 + 1969 / 4 - 1969 / 100 + 1969 / 400) * 86400

/-- The constant `internalToUnix`. -/
def internalToUnix : Int := -unixToInternal

/-- Model of `Time.UTC`: the same instant with the location set to UTC and the
monotonic reading stripped. -/
def Time.UTC (t : Time) : Time := { t with loc := .UTC, mono := none }

/-- Model of `Time.unixSec`: `t.sec() + internalToUnix` in `int64`. -/
def Time.unixSec (t : Time) : Int := wrapInt64 (t.sec + internalToUnix)

/-- Model of `Time.UnixNano`: `t.unixSec()*1e9 + int64(t.nsec())` in wrapping
`int64` arithmetic. -/
def Time.UnixNano (t : Time) : Int :=
  wrapInt64 (wrapInt64 (t.unixSec * 1000000000) + (t.nsec : Int))

/-- The exact number of nanoseconds from the Unix epoch to `t`, as a
mathematical integer. -/
def Time.nanosSinceEpoch (t : Time) : Int :=
  (t.sec + internalToUnix) * 1000000000 + (t.nsec : Int)

/-- Model of `unixTime(sec, nsec)`: the time `sec` seconds and `nsec`
nanoseconds (in `[0, 1e9)`) after the Unix epoch, in the local zone and without
monotonic reading. -/
def unixTime (sec nsec : Int) : Time :=
  { sec := wrapInt64 (sec + unixToInternal), nsec := nsec.toNat, loc := .Local, mono := none }

/-- Model of `time.Unix(sec, nsec)`: nanoseconds outside `[0, 1e9)` are
carried into the seconds with Go's truncating division. -/
def Unix (sec nsec : Int) : Time :=
  if nsec < 0 ∨ nsec ≥ 1000000000 then
    let n := nsec.tdiv 1000000000
    let sec1 := wrapInt64 (sec + n)
    let nsec1 := wrapInt64 (nsec - wrapInt64 (n * 1000000000))
    if nsec1 < 0 then unixTime (wrapInt64 (sec1 - 1)) (wrapInt64 (nsec1 + 1000000000))
    else unixTime sec1 nsec1
  else unixTime sec nsec

/-- Model of `Time.Equal`: when both values carry a monotonic reading the
readings are compared, otherwise seconds and nanoseconds. -/
def Time.Equal (t u : Time) : Bool :=
  match t.mono, u.mono with
  | some a, some b => a == b
  | _, _ => t.sec == u.sec && t.nsec == u.nsec

/-- Model of `Time.Before`: when both values carry a monotonic reading the
readings are compared, otherwise seconds and then nanoseconds. -/
def Time.Before (t u : Time) : Bool :=
  match t.mono, u.mono with
  | some a, some b => a < b
  | _, _ => t.sec < u.sec || (t.sec == u.sec && t.nsec < u.nsec)

/-! ## Time cursor -/

/-- Embedding of `EncodeTimeCursor`. -/
def EncodeTimeCursor (t : Time) : List Nat :=
  encodeToString (PutUint64 (toUint64 t.UTC.UnixNano))

/-- Embedding of `DecodeTimeCursor`. -/
def DecodeTimeCursor (s : List Nat) : Outcome Error Time :=
  match decodeString s with
  | .error err => .error (.decodeCursor err)
  | .ok b =>
      if b.length ≠ 8 then .error .ErrCursorLength
      else
        match Uint64 b with
        | none => .panic
        | some u => .ok (Unix 0 (toInt64 u)).UTC

/-! ## Composite cursor -/

/-- Embedding of `EncodeTimeAndInt64Cursor`: the buffer is `buf[0:8]` followed
by `buf[8:16]`. -/
def EncodeTimeAndInt64Cursor (t : Time) (id : Int) : List Nat :=
  encodeToString (PutUint64 (toUint64 t.UTC.UnixNano) ++ PutUint64 (toUint64 id))

/-- Embedding of `DecodeTimeAndInt64Cursor`. -/
def DecodeTimeAndInt64Cursor (s : List Nat) : Outcome Error (Time × Int) :=
  match decodeString s with
  | .error err => .error (.decodeCursor err)
  | .ok b =>
      if b.length ≠ 16 then .error .ErrCursorLength
      else
        match Uint64 (b.take 8), Uint64 ((b.drop 8).take 8) with
        | some tu, some idu => .ok ((Unix 0 (toInt64 tu)).UTC, toInt64 idu)
        | _, _ => .panic

/-- Byte-wise comparison `s < t` of two Go strings. -/
def strLess : List Nat → List Nat → Bool
  | [], [] => false
  | [], _ :: _ => true
  | _ :: _, [] => false
  | a :: as, b :: bs => a < b || (a == b && strLess as bs)

/-- A Go string literal of ASCII characters as its bytes. -/
def str (s : String) : List Nat := s.toList.map Char.toNat

/-! ## Directions, orders and pages (`page.go`) -/

/-- The Go type `Dir`, an `int`. -/
abbrev Dir := Int

/-- The constant `DirNext = iota + 1`. -/
def DirNext : Dir := 1

/-- The constant `DirPrev`. -/
def DirPrev : Dir := 2

/-- The Go type `Order`, an `int`. -/
abbrev Order := Int

/-- The constant `Ascending = iota + 1`. -/
def Ascending : Order := 1

/-- The constant `Descending`. -/
def Descending : Order := 2

/-- Embedding of `Order.SQLKeyword`. -/
def SQLKeyword (o : Order) : List Nat :=
  if o = Ascending then str "ASC"
  else if o = Descending then str "DESC"
  else str "ASC"

/-- Embedding of `Order.Reverse`; `none` is the panic `invalid order`. -/
def Reverse (o : Order) : Option Order :=
  if o = Ascending then some Descending
  else if o = Descending then some Ascending
  else none

/-- Embedding of `Order.InequalityOp`; `none` is the panic `invalid order`. -/
def InequalityOp (o : Order) : Option (List Nat) :=
  if o = Ascending then some (str ">")
  else if o = Descending then some (str "<")
  else none

/-- The struct `Page`. -/
structure Page where
  Cursor : List Nat
  Limit : Int
  Dir : Dir
  deriving DecidableEq, Repr

/-- Embedding of `(*Page).EnsureDefaults`, returning the updated page. -/
def EnsureDefaults (p : Page) : Page :=
  let p1 := if p.Limit ≤ 0 then { p with Limit := 50 } else p
  if p1.Dir ≠ DirNext ∧ p1.Dir ≠ DirPrev then { p1 with Dir := DirNext } else p1

/-! ## SQL fragments (`sql.go`) -/

/-- Embedding of `EffectiveOrder`; `none` is the panic of `Reverse`. -/
def EffectiveOrder (ord : Order) (dir : Dir) : Option Order :=
  if dir = DirPrev then Reverse ord else some ord

/-- Embedding of `StableWhereTimeAndID`: the writes to the string builder in
sequence. -/
def StableWhereTimeAndID (timeCol idCol : List Nat) (ord : Order) : List Nat :=
  let tCmp := if ord = Descending then str "<" else str ">"
  let idCmp := if ord = Descending then str "<" else str ">"
  str "(" ++ timeCol ++ str " " ++ tCmp ++ str " ?)" ++ str " OR (" ++ timeCol ++
    str " = ? AND " ++ idCol ++ str " " ++ idCmp ++ str " ?)"

/-- The loop of `OrderClause`: `i` is the index of the next column and `b` the
contents of the string builder. -/
def OrderClause.loop (kw : List Nat) : Nat → List (List Nat) → List Nat → List Nat
  | _, [], b => b
  | i, c :: cols, b =>
      OrderClause.loop kw (i + 1) cols ((if i > 0 then b ++ str ", " else b) ++ c ++ str " " ++ kw)

/-- Embedding of `OrderClause`. -/
def OrderClause (cols : List (List Nat)) (ord : Order) : List Nat :=
  OrderClause.loop (SQLKeyword ord) 0 cols []

/-! ## Raw SQL composition (`ksql/ksql.go`) -/

/-- Model of `strings.ToLower` on the bytes of a string: the letters `A-Z` are
mapped to `a-z`.  Bytes of multi-byte runes are kept as they are; Go's Unicode
lowering of such runes yields no space and none of the letters of `where`. -/
def ToLower (s : List Nat) : List Nat :=
  s.map (fun c => if 65 ≤ c ∧ c ≤ 90 then c + 32 else c)

/-- Test `s[0:len(sub)] == sub` used by `Contains`. -/
def matchesAt (s sub : List Nat) : Bool := s.take sub.length == sub

/-- Model of `strings.Contains`: `sub` occurs at some offset of `s`. -/
def Contains : List Nat → List Nat → Bool
  | [], sub => matchesAt [] sub
  | c :: s, sub => matchesAt (c :: s) sub || Contains s sub

/-- Model of `strings.HasSuffix`. -/
def HasSuffix (s suffix : List Nat) : Bool :=
  s.length ≥ suffix.length && s.drop (s.length - suffix.length) == suffix

/-- Embedding of `hasWhere`. -/
def hasWhere (lowerBase : List Nat) : Bool :=
  if Contains lowerBase (str " where ") || HasSuffix lowerBase (str " where") then true
  else false

/-- Embedding of `appendWhere`. -/
def appendWhere (base cond : List Nat) : List Nat :=
  if hasWhere (ToLower base) then str " AND " ++ cond else str " WHERE " ++ cond

/-- A bound value of a query (an element of `[]any`): an `int64` key, a
`time.Time` key, or the `int` limit. -/
inductive Arg where
  | int64 (v : Int)
  | time (t : Time)
  | int (n : Int)
  deriving DecidableEq, Repr

/-- The Go type `Placeholder`, `func(n int) string`. -/
abbrev Placeholder := Int → List Nat

/-- Embedding of `PlaceholderQuestion`. -/
def PlaceholderQuestion : Placeholder := fun _ => str "?"

/-- The state of a composition: the string builder, the bound values and the
index of the next placeholder. -/
structure Builder where
  sql : List Nat
  args : List Arg
  argIdx : Int
  deriving DecidableEq, Repr

/-- Embedding of `QueryByID`; `none` is a panic. -/
def QueryByID (base : List Nat) (p : Page) (ord : Order) (col : List Nat) (ph : Placeholder) :
    Option (List Nat × List Arg) :=
  let p := EnsureDefaults p
  match EffectiveOrder ord p.Dir with
  | none => none
  | some eff =>
    let start : Builder := ⟨base, [], 1⟩
    let window : Option Builder :=
      if p.Cursor ≠ [] then
        match DecodeInt64Cursor p.Cursor with
        | .ok id =>
            match InequalityOp eff with
            | none => none
            | some op =>
                let cond := col ++ str " " ++ op ++ str " " ++ ph start.argIdx
                some ⟨start.sql ++ appendWhere base cond, start.args ++ [Arg.int64 id],
                  start.argIdx + 1⟩
        | .error _ => some start
        | .panic => none
      else some start
    match window with
    | none => none
    | some b =>
        some (b.sql ++ str " ORDER BY " ++ col ++ str " " ++ SQLKeyword eff ++
            str " LIMIT " ++ ph b.argIdx, b.args ++ [Arg.int p.Limit])

/-- Embedding of `QueryByTime`; `none` is a panic. -/
def QueryByTime (base : List Nat) (p : Page) (ord : Order) (col : List Nat) (ph : Placeholder) :
    Option (List Nat × List Arg) :=
  let p := EnsureDefaults p
  match EffectiveOrder ord p.Dir with
  | none => none
  | some eff =>
    let start : Builder := ⟨base, [], 1⟩
    let window : Option Builder :=
      if p.Cursor ≠ [] then
        match DecodeTimeCursor p.Cursor with
        | .ok tm =>
            match InequalityOp eff with
            | none => none
            | some op =>
                let cond := col ++ str " " ++ op ++ str " " ++ ph start.argIdx
                some ⟨start.sql ++ appendWhere base cond, start.args ++ [Arg.time tm],
                  start.argIdx + 1⟩
        | .error _ => some start
        | .panic => none
      else some start
    match window with
    | none => none
    | some b =>
        some (b.sql ++ str " ORDER BY " ++ col ++ str " " ++ SQLKeyword eff ++
            str " LIMIT " ++ ph b.argIdx, b.args ++ [Arg.int p.Limit])

/-- Embedding of `QueryByTimeAndID`; `none` is a panic. -/
def QueryByTimeAndID (base : List Nat) (p : Page) (ord : Order) (timeCol idCol : List Nat)
    (ph : Placeholder) : Option (List Nat × List Arg) :=
  let p := EnsureDefaults p
  match EffectiveOrder ord p.Dir with
  | none => none
  | some eff =>
    let start : Builder := ⟨base, [], 1⟩
    let window : Option Builder :=
      if p.Cursor ≠ [] then
        match DecodeTimeAndInt64Cursor p.Cursor with
        | .ok (tm, id) =>
            let tCmp := if eff = Descending then str "<" else str ">"
            let idCmp := if eff = Descending then str "<" else str ">"
            let cond := str "(" ++ timeCol ++ str " " ++ tCmp ++ str " " ++ ph start.argIdx ++
              str ") OR (" ++ timeCol ++ str " = " ++ ph (start.argIdx + 1) ++ str " AND " ++
              idCol ++ str " " ++ idCmp ++ str " " ++ ph (start.argIdx + 2) ++ str ")"
            some ⟨start.sql ++ appendWhere base cond,
              start.args ++ [Arg.time tm, Arg.time tm, Arg.int64 id], start.argIdx + 3⟩
        | .error _ => some start
        | .panic => none
      else some start
    match window with
    | none => none
    | some b =>
        some (b.sql ++ str " ORDER BY " ++ timeCol ++ str " " ++ SQLKeyword eff ++ str ", " ++
            idCol ++ str " " ++ SQLKeyword eff ++ str " LIMIT " ++ ph b.argIdx,
          b.args ++ [Arg.int p.Limit])

/-- Model of the verb `%d` of `fmt.Sprintf` for an `int`: the decimal digits,
after a minus sign for a negative number. -/
def formatInt (n : Int) : List Nat :=
  if n < 0 then 45 :: (Nat.toDigits 10 (-n).toNat).map Char.toNat
  else (Nat.toDigits 10 n.toNat).map Char.toNat

/-- Embedding of `PlaceholderDollar`: `fmt.Sprintf("$%d", n)`. -/
def PlaceholderDollar : Placeholder := fun n => str "$" ++ formatInt n

/-! ## Result normalisation (`result.go`) -/

/-- Embedding of `NormalizePageResult`: the slice reversed by `slices.Reverse`
when the direction is `DirPrev`, the slice itself otherwise. -/
def NormalizePageResult {T : Type} (p : Page) (results : List T) : List T :=
  if p.Dir = DirPrev then results.reverse else results

/-! ## GORM scopes (`kgorm/pagination.go`) -/

/-- The part of a `*gorm.DB` statement that the scopes of package `kgorm`
touch: the text of the `SELECT ... FROM ...` head, the conditions added by
`Where` with their bound values, the expressions added by `Order`, the value
given to `Limit`, and the cursors reported to `Logger.Warn`. -/
structure GormDB where
  head : List Nat
  wheres : List (List Nat × List Arg)
  orders : List (List Nat)
  limit : Option Int
  warnings : List (List Nat)
  deriving DecidableEq, Repr

/-- Model of `db.Where(query, args...)`. -/
def GormDB.Where (db : GormDB) (query : List Nat) (args : List Arg) : GormDB :=
  { db with wheres := db.wheres ++ [(query, args)] }

/-- Model of `db.Order(value)`. -/
def GormDB.Order (db : GormDB) (value : List Nat) : GormDB :=
  { db with orders := db.orders ++ [value] }

/-- Model of `db.Limit(limit)`. -/
def GormDB.Limit (db : GormDB) (limit : Int) : GormDB :=
  { db with limit := some limit }

/-- Model of `db.Logger.Warn` for an invalid cursor. -/
def GormDB.Warn (db : GormDB) (cursor : List Nat) : GormDB :=
  { db with warnings := db.warnings ++ [cursor] }

/-- Embedding of `kgorm.PageByTimeAndID`; `none` is a panic. -/
def PageByTimeAndID (db : GormDB) (p : Page) (ord : Order) (timeCol idCol : List Nat) :
    Option GormDB :=
  let p := EnsureDefaults p
  match EffectiveOrder ord p.Dir with
  | none => none
  | some effective =>
    let db1 : Option GormDB :=
      if p.Cursor ≠ [] then
        match DecodeTimeAndInt64Cursor p.Cursor with
        | .error _ => some (db.Warn p.Cursor)
        | .ok (tm, id) =>
            let wher := StableWhereTimeAndID timeCol idCol effective
            some (db.Where wher [Arg.time tm, Arg.time tm, Arg.int64 id])
        | .panic => none
      else some db
    match db1 with
    | none => none
    | some db1 =>
        let order := OrderClause [timeCol, idCol] effective
        some ((db1.Order order).Limit p.Limit)

/-- Model of GORM's `clause.Expr.Build` with the PostgreSQL dialector: each `?`
of the fragment takes the next of the fragment's values, which is appended to
the bound values `vars` of the statement and written as `$n`, `n` being the
number of values bound so far; a `?` without a value is written as it is, and
values left over are bound without text. -/
def exprBuild : List Nat → List Arg → List Arg → List Nat × List Arg
  | [], rest, vars => ([], vars ++ rest)
  | c :: sql, rest, vars =>
      match c == 63, rest with
      | true, v :: rest1 =>
          let r := exprBuild sql rest1 (vars ++ [v])
          (PlaceholderDollar ((vars.length : Int) + 1) ++ r.1, r.2)
      | _, _ =>
          let r := exprBuild sql rest vars
          (c :: r.1, r.2)

/-- Model of `strings.ToUpper` on the bytes of a string: the letters `a-z` are
mapped to `A-Z`. -/
def ToUpper (s : List Nat) : List Nat :=
  s.map (fun c => if 97 ≤ c ∧ c ≤ 122 then c - 32 else c)

/-- Model of GORM's `buildExprs` for the conditions of a `WHERE` clause: the
conditions are joined by ` AND `; when there are several, a condition whose
text contains ` AND ` or ` OR ` is put in parentheses.  `many` tells whether
there are several and `first` whether the condition is the first. -/
def buildExprs (many : Bool) :
    Bool → List (List Nat × List Arg) → List Arg → List Nat × List Arg
  | _, [], vars => ([], vars)
  | first, (sql, args) :: rest, vars =>
      let e := exprBuild sql args vars
      let wrap := many && (Contains (ToUpper sql) (str " AND ") || Contains (ToUpper sql) (str " OR "))
      let text := if wrap then str "(" ++ e.1 ++ str ")" else e.1
      let r := buildExprs many false rest e.2
      ((if first then text else str " AND " ++ text) ++ r.1, r.2)

/-- The expressions of an `ORDER BY` clause, joined by `,`. -/
def joinOrders : List (List Nat) → List Nat
  | [] => []
  | [o] => o
  | o :: rest => o ++ str "," ++ joinOrders rest

/-- Model of the statement that GORM builds for `Find` with the PostgreSQL
dialector, as the tests of package `kgorm` observe it in dry-run mode: the
head, then `WHERE`, `ORDER BY` and `LIMIT` when present, and the bound
values. -/
def toSQL (db : GormDB) : List Nat × List Arg :=
  let w := buildExprs (decide (1 < db.wheres.length)) true db.wheres []
  let s1 := if db.wheres = [] then db.head else db.head ++ str " WHERE " ++ w.1
  let s2 := if db.orders = [] then s1 else s1 ++ str " ORDER BY " ++ joinOrders db.orders
  match db.limit with
  | some l =>
      if 0 ≤ l then
        (s2 ++ str " LIMIT " ++ PlaceholderDollar ((w.2.length : Int) + 1), w.2 ++ [Arg.int l])
      else (s2, w.2)
  | none => (s2, w.2)

/-! ## Notions used to state the properties -/

/-- Canonical text of a cursor: it contains no line-break byte, and the sextet
of its last character has its two low bits clear. -/
def CanonicalCursor (s : List Nat) : Bool :=
  s.all (fun c => c != 10 && c != 13) &&
    match s.getLast? with
    | none => true
    | some c =>
        match decodeMap c with
        | none => true
        | some out => out % 4 == 0

/-- The two's-complement bit pattern of a signed 64-bit integer, read as an
unsigned number. -/
def twosComplement (v : Int) : Nat :=
  if 0 ≤ v then v.toNat else (v + 18446744073709551616).toNat

/-- The number written by a byte sequence, most significant byte first. -/
def bigEndianValue (b : List Nat) : Nat := b.foldl (fun acc x => acc * 256 + x) 0

/-- The characters `A-Z`, `a-z`, `0-9`, `-` and `_`. -/
def isURLSafeChar (c : Nat) : Bool :=
  (65 ≤ c && c ≤ 90) || (97 ≤ c && c ≤ 122) || (48 ≤ c && c ≤ 57) || c == 45 || c == 95

/-! ## Notions used to state the properties of queries -/

/-- Text of the composite window `(T op1 P1) OR (T = P2 AND I op2 P3)` for
column names `T`, `I`, comparison operators `op1`, `op2` and placeholders
`P1`, `P2`, `P3`. -/
def windowText (timeCol idCol tCmp idCmp p1 p2 p3 : List Nat) : List Nat :=
  str "(" ++ timeCol ++ str " " ++ tCmp ++ str " " ++ p1 ++ str ") OR (" ++ timeCol ++
    str " = " ++ p2 ++ str " AND " ++ idCol ++ str " " ++ idCmp ++ str " " ++ p3 ++ str ")"

/-- Truth of the SQL comparison `a op b` on non-null values of a linearly
ordered column type, for the operators `<`, `>` and `=`. -/
def cmpHolds {α : Type} [LinearOrder α] (op : List Nat) (a b : α) : Bool :=
  if op = str "<" then decide (a < b)
  else if op = str ">" then decide (a > b)
  else if op = str "=" then decide (a = b)
  else false

/-- Truth of the composite window `(T op1 P1) OR (T = P2 AND I op2 P3)` on a row
whose columns `T`, `I` hold `rt`, `rid`, with the placeholders bound to `a1`,
`a2`, `a3`. -/
def windowHolds {τ ι : Type} [LinearOrder τ] [LinearOrder ι] (tCmp idCmp : List Nat)
    (rt : τ) (rid : ι) (a1 a2 : τ) (a3 : ι) : Bool :=
  cmpHolds tCmp rt a1 || (cmpHolds (str "=") rt a2 && cmpHolds idCmp rid a3)

/-- The base query of the test `DESC DirNext with cursor`. -/
def exampleBase : List Nat := str "SELECT id FROM posts"

/-- The page of the test `DESC DirNext with cursor`. -/
def examplePage : Page := ⟨EncodeInt64Cursor 100, 7, DirNext⟩

/-- Text made of literal segments, each followed by the placeholder of the
next index: `s1 ph(i) s2 ph(i+1) ...`. -/
def renderWith (ph : Placeholder) : Int → List (List Nat) → List Nat
  | _, [] => []
  | i, s :: rest => s ++ ph i ++ renderWith ph (i + 1) rest

/-- Rows are in the order `o` of their keys: keys never decrease for
`Ascending`, never increase for `Descending`. -/
def SortedBy {T κ : Type} [LinearOrder κ] (key : T → κ) (o : Order) (rows : List T) : Prop :=
  if o = Descending then rows.Pairwise (fun a b => key b ≤ key a)
  else rows.Pairwise (fun a b => key a ≤ key b)

/-- The time 2025-11-12T00:00:00Z. -/
def exampleTime : Time := ⟨63898502400, 0, .UTC, none⟩

/-- A fresh statement over the table `posts`. -/
def exampleDB : GormDB := ⟨str "SELECT * FROM posts", [], [], none, []⟩

/-- The composer `q`, a function of the placeholder strategy, renders one
placeholder for each bound value: there are literal segments and bound values,
the same for every strategy and equal in number (a number listed in `counts`),
such that the text is the segments, each followed by the placeholder of the
next index from 1 on; the last bound value is the limit and those before it are
key values; and the text ends with ` LIMIT ` and the placeholder whose index is
the number of bound values. -/
def PlaceholdersMatchArgs (q : Placeholder → Option (List Nat × List Arg)) (limit : Int)
    (counts : List Nat) : Prop :=
  ∃ (segs : List (List Nat)) (args : List Arg),
    args.length = segs.length ∧ args.length ∈ counts ∧
    args.getLast? = some (Arg.int limit) ∧
    (∀ a ∈ args.dropLast, ∀ n, a ≠ Arg.int n) ∧
    ∀ ph : Placeholder, q ph = some (renderWith ph 1 segs, args) ∧
      ∃ pre, renderWith ph 1 segs = pre ++ str " LIMIT " ++ ph (args.length : Int)

/-- Truth of the text `B AND (T op1 P1) OR (T = P2 AND I op2 P3)` on a row under
SQL precedence, where `AND` binds tighter than `OR`, so that the text reads
`(B AND (T op1 P1)) OR (T = P2 AND I op2 P3)`; `b` is the truth of the base
condition `B` on the row. -/
def unenclosedHolds {τ ι : Type} [LinearOrder τ] [LinearOrder ι] (b : Bool)
    (tCmp idCmp : List Nat) (rt : τ) (rid : ι) (a1 a2 : τ) (a3 : ι) : Bool :=
  (b && cmpHolds tCmp rt a1) || (cmpHolds (str "=") rt a2 && cmpHolds idCmp rid a3)

/-- The base query of the test `AppendWhereWhenBaseHasWhere`. -/
def exampleBaseWhere : List Nat := str "SELECT * FROM posts WHERE tenant_id = 1"

/-- The Unix epoch, `time.Unix(0, 0).UTC()`. -/
def exampleEpoch : Time := ⟨62135596800, 0, .UTC, none⟩

/-- A statement over the table `posts` that already has the condition
`tenant_id = ?` bound to 1. -/
def exampleDBWhere : GormDB :=
  ⟨str "SELECT * FROM posts", [(str "tenant_id = ?", [Arg.int 1])], [], none, []⟩

/-- The base query `SELECT 'a where b' AS note FROM posts`, which has no `WHERE`
clause: the word `where` stands inside a string literal.  The byte 39 is the
single quote. -/
def exampleBaseLiteral : List Nat :=
  str "SELECT " ++ [39] ++ str "a where b" ++ [39] ++ str " AS note FROM posts"

/-! # Theorems -/

/-! ## Base64: decoding inverts encoding -/

theorem decodeMap_encodeChar : ∀ v, v < 64 → decodeMap (encodeChar v) = some v := by decide

theorem decodeFrom_encodeToString (b : List Nat) :
    ∀ si, (∀ x ∈ b, x < 256) → decodeFrom (encodeToString b) si [] = .ok b := by
  induction b using encodeToString.induct with
  | case1 a b c rest ih =>
    intro si h
    have ha : a < 256 := h a (by simp)
    have hb : b < 256 := h b (by simp)
    have hc : c < 256 := h c (by simp)
    have hrest : ∀ x ∈ rest, x < 256 := fun x hx => h x (by simp [hx])
    simp only [encodeToString, decodeFrom]
    rw [decodeMap_encodeChar _ (Nat.mod_lt _ (by norm_num)),
      decodeMap_encodeChar _ (Nat.mod_lt _ (by norm_num)),
      decodeMap_encodeChar _ (Nat.mod_lt _ (by norm_num)),
      decodeMap_encodeChar _ (Nat.mod_lt _ (by norm_num))]
    simp only [List.length_nil, List.nil_append, List.length_cons, List.singleton_append,
      List.cons_append, ih _ hrest, quantumBytes]
    simp
    refine ⟨?_, ?_, ?_⟩ <;> omega
  | case2 a b =>
    intro si h
    have ha : a < 256 := h a (by simp)
    have hb : b < 256 := h b (by simp)
    simp only [encodeToString, decodeFrom]
    rw [decodeMap_encodeChar _ (Nat.mod_lt _ (by norm_num)),
      decodeMap_encodeChar _ (Nat.mod_lt _ (by norm_num)),
      decodeMap_encodeChar _ (Nat.mod_lt _ (by norm_num))]
    simp [quantumBytes]
    refine ⟨?_, ?_⟩ <;> omega
  | case3 a =>
    intro si h
    have ha : a < 256 := h a (by simp)
    simp only [encodeToString, decodeFrom]
    rw [decodeMap_encodeChar _ (Nat.mod_lt _ (by norm_num)),
      decodeMap_encodeChar _ (Nat.mod_lt _ (by norm_num))]
    simp [quantumBytes]
    omega
  | case4 =>
    intro si h
    simp [encodeToString, decodeFrom]

theorem decodeString_encodeToString (b : List Nat) (h : ∀ x ∈ b, x < 256) :
    decodeString (encodeToString b) = .ok b :=
  decodeFrom_encodeToString b 0 h

/-! ## Big-endian words and integer conversions -/

theorem PutUint64_length (u : Nat) : (PutUint64 u).length = 8 := rfl

theorem PutUint64_lt (u : Nat) : ∀ x ∈ PutUint64 u, x < 256 := by
  intro x hx
  simp only [PutUint64, List.mem_cons, List.mem_singleton, List.not_mem_nil, or_false] at hx
  omega

theorem Uint64_PutUint64 (u : Nat) (h : u < 18446744073709551616) :
    Uint64 (PutUint64 u) = some u := by
  simp only [Uint64, PutUint64, List.length_cons, List.length_nil, List.getD_cons_zero,
    List.getD_cons_succ]
  simp
  omega

theorem toUint64_lt (v : Int) : toUint64 v < 18446744073709551616 := by
  unfold toUint64
  omega

theorem toInt64_toUint64 (v : Int) (h : IsInt64 v) : toInt64 (toUint64 v) = v := by
  unfold IsInt64 at h
  unfold toInt64 toUint64
  split <;> omega

/-! ## Time arithmetic -/

theorem unixToInternal_eq : unixToInternal = 62135596800 := by decide

theorem tdiv_billion (n : Int) :
    n.tdiv 1000000000 = if 0 ≤ n then n / 1000000000 else -((-n) / 1000000000) := by
  split
  · exact Int.tdiv_eq_ediv ‹_› (by norm_num)
  · calc n.tdiv 1000000000 = (-(-n)).tdiv 1000000000 := by rw [Int.neg_neg]
      _ = -((-n).tdiv 1000000000) := Int.neg_tdiv _ _
      _ = -((-n) / 1000000000) := by rw [Int.tdiv_eq_ediv (by omega) (by norm_num)]

/-- For an `int64` count of nanoseconds, `time.Unix(0, n)` is the floor
division of `n` into seconds and nanoseconds. -/
theorem Unix_zero (n : Int) (h : IsInt64 n) :
    Unix 0 n = ⟨n / 1000000000 + unixToInternal, (n % 1000000000).toNat, .Local, none⟩ := by
  unfold IsInt64 at h
  simp only [Unix, unixTime, wrapInt64, unixToInternal_eq, tdiv_billion]
  split_ifs <;> simp only [Time.mk.injEq, and_true] <;> constructor <;> omega

theorem UnixNano_IsInt64 (t : Time) : IsInt64 t.UnixNano := by
  unfold IsInt64 Time.UnixNano wrapInt64
  omega

/-- Without overflow `UnixNano` is the exact nanosecond count. -/
theorem UnixNano_eq (t : Time) (hr : IsInt64 t.nanosSinceEpoch) :
    t.UTC.UnixNano = t.nanosSinceEpoch := by
  unfold IsInt64 at hr
  simp only [Time.UnixNano, Time.unixSec, Time.UTC, Time.nanosSinceEpoch, wrapInt64, internalToUnix,
    unixToInternal_eq] at *
  omega

theorem Unix_UnixNano (t : Time) (hw : t.WF) (hr : IsInt64 t.nanosSinceEpoch) :
    (Unix 0 t.UTC.UnixNano).UTC = t.UTC := by
  rw [UnixNano_eq t hr, Unix_zero _ hr]
  obtain ⟨_, hn⟩ := hw
  unfold IsInt64 at hr
  simp only [Time.UTC, Time.nanosSinceEpoch, internalToUnix, unixToInternal_eq, Time.mk.injEq,
    and_true] at *
  constructor <;> omega

theorem toUint64_toInt64 (u : Nat) (h : u < 18446744073709551616) :
    toUint64 (toInt64 u) = u := by
  unfold toUint64 toInt64
  split <;> omega

theorem toInt64_IsInt64 (u : Nat) : IsInt64 (toInt64 u) := by
  unfold IsInt64 toInt64
  split <;> omega


theorem PutUint64_of_Uint64 (b : List Nat) (u : Nat) (hl : b.length = 8)
    (hb : ∀ x ∈ b, x < 256) (hu : Uint64 b = some u) :
    u < 18446744073709551616 ∧ PutUint64 u = b := by
  obtain ⟨b0, b1, b2, b3, b4, b5, b6, b7, rfl⟩ :
      ∃ b0 b1 b2 b3 b4 b5 b6 b7, b = [b0, b1, b2, b3, b4, b5, b6, b7] := by
    rcases b with _ | ⟨b0, _ | ⟨b1, _ | ⟨b2, _ | ⟨b3, _ | ⟨b4, _ | ⟨b5, _ | ⟨b6, _ | ⟨b7, _ | ⟨b8, r⟩⟩⟩⟩⟩⟩⟩⟩⟩ <;>
      simp at hl
    exact ⟨_, _, _, _, _, _, _, _, rfl⟩
  have h0 := hb b0 (by simp)
  have h1 := hb b1 (by simp)
  have h2 := hb b2 (by simp)
  have h3 := hb b3 (by simp)
  have h4 := hb b4 (by simp)
  have h5 := hb b5 (by simp)
  have h6 := hb b6 (by simp)
  have h7 := hb b7 (by simp)
  simp only [Uint64, List.length_cons, List.length_nil, List.getD_cons_zero,
    List.getD_cons_succ] at hu
  simp at hu
  subst hu
  refine ⟨by omega, ?_⟩
  simp only [PutUint64, List.cons.injEq, and_true]
  refine ⟨?_, ?_, ?_, ?_, ?_, ?_, ?_, ?_⟩ <;> omega

theorem bigEndianValue_PutUint64 (u : Nat) (h : u < 18446744073709551616) :
    bigEndianValue (PutUint64 u) = u := by
  simp only [bigEndianValue, PutUint64, List.foldl]
  omega

theorem toUint64_eq_twosComplement (v : Int) (h : IsInt64 v) : toUint64 v = twosComplement v := by
  unfold IsInt64 at h
  unfold toUint64 twosComplement
  split <;> omega

/-! ## Base64: shape of the decoder and of its output -/

theorem encodeChar_of_decodeMap (c o : Nat) (h : decodeMap c = some o) :
    o < 64 ∧ encodeChar o = c := by
  unfold decodeMap at h
  split at h
  · rename_i hlt
    have ho : List.indexOf c encodeURL = o := by simpa using h
    have hlen : encodeURL.length = 64 := by decide
    have hlt2 : List.indexOf c encodeURL < encodeURL.length := by omega
    refine ⟨by omega, ?_⟩
    unfold encodeChar
    rw [← ho, List.getD_eq_getElem _ _ hlt2]
    exact List.getElem_indexOf hlt2
  · simp at h

theorem decodeFrom_cons_ok (c : Nat) (rest : List Nat) (si : Nat) (dbuf b : List Nat)
    (hc : c ≠ 10 ∧ c ≠ 13) (h : decodeFrom (c :: rest) si dbuf = .ok b) :
    ∃ o, decodeMap c = some o ∧
      ((dbuf.length = 3 ∧ ∃ tail, decodeFrom rest (si + 1) [] = .ok tail ∧
          b = quantumBytes (dbuf ++ [o]) ++ tail) ∨
        (dbuf.length ≠ 3 ∧ decodeFrom rest (si + 1) (dbuf ++ [o]) = .ok b)) := by
  rw [decodeFrom] at h
  cases hm : decodeMap c with
  | none => simp [hm, hc.1, hc.2] at h
  | some o =>
    refine ⟨o, rfl, ?_⟩
    simp only [hm] at h
    by_cases hl : dbuf.length = 3
    · left
      refine ⟨hl, ?_⟩
      simp only [hl, if_true] at h
      cases hr : decodeFrom rest (si + 1) [] with
      | error e => simp [hr] at h
      | ok tail =>
        simp only [hr, Except.ok.injEq] at h
        exact ⟨tail, rfl, h.symm⟩
    · right
      refine ⟨hl, ?_⟩
      simpa [hl] using h

theorem quantumBytes_length (dbuf : List Nat) : (quantumBytes dbuf).length = min 3 (dbuf.length - 1) := by
  simp [quantumBytes, List.length_take]
  omega

theorem quantumBytes_lt (dbuf : List Nat) : ∀ x ∈ quantumBytes dbuf, x < 256 := by
  intro x hx
  have hx2 := List.mem_of_mem_take hx
  simp only [List.mem_cons, List.mem_singleton, List.not_mem_nil, or_false] at hx2
  omega

theorem decodeFrom_length (s : List Nat) :
    ∀ (si : Nat) (dbuf b : List Nat), (∀ c ∈ s, c ≠ 10 ∧ c ≠ 13) → dbuf.length ≤ 3 →
      decodeFrom s si dbuf = .ok b →
      b.length = (dbuf.length + s.length) * 3 / 4 ∧ (dbuf.length + s.length) % 4 ≠ 1 := by
  induction s with
  | nil =>
    intro si dbuf b _ hl h
    rw [decodeFrom] at h
    split at h
    · rename_i h0
      simp only [Except.ok.injEq] at h
      subst h
      simp [h0]
    · simp at h
    · rename_i h0 h1
      simp only [Except.ok.injEq] at h
      subst h
      have k0 : dbuf.length ≠ 0 := fun hh => h0 hh
      have k1 : dbuf.length ≠ 1 := fun hh => h1 hh
      rw [quantumBytes_length]
      simp only [List.length_nil, Nat.add_zero]
      constructor <;> omega
  | cons c rest ih =>
    intro si dbuf b hnl hl h
    have hc := hnl c (by simp)
    have hrest : ∀ x ∈ rest, x ≠ 10 ∧ x ≠ 13 := fun x hx => hnl x (by simp [hx])
    obtain ⟨o, _, ⟨h3, tail, ht, rfl⟩ | ⟨h3, ht⟩⟩ := decodeFrom_cons_ok c rest si dbuf b hc h
    · have := ih (si + 1) [] tail hrest (by simp) ht
      simp only [List.length_append, quantumBytes_length, List.length_cons, List.length_nil] at *
      omega
    · have := ih (si + 1) (dbuf ++ [o]) b hrest (by simp; omega) ht
      simp only [List.length_append, List.length_cons, List.length_nil] at *
      omega


theorem decodeFrom_lt (s : List Nat) :
    ∀ (si : Nat) (dbuf b : List Nat), decodeFrom s si dbuf = .ok b → ∀ x ∈ b, x < 256 := by
  induction s with
  | nil =>
    intro si dbuf b h
    rw [decodeFrom] at h
    split at h
    · simp only [Except.ok.injEq] at h
      subst h
      simp
    · simp at h
    · simp only [Except.ok.injEq] at h
      subst h
      exact quantumBytes_lt dbuf
  | cons c rest ih =>
    intro si dbuf b h
    rw [decodeFrom] at h
    split at h
    · split at h
      · split at h
        · rename_i tail ht
          simp only [Except.ok.injEq] at h
          subst h
          intro x hx
          rcases List.mem_append.1 hx with hx | hx
          · exact quantumBytes_lt _ x hx
          · exact ih _ _ _ ht x hx
        · simp at h
      · exact ih _ _ _ h
    · split at h
      · exact ih _ _ _ h
      · simp at h

theorem encodeToString_quantum4 (o0 o1 o2 o3 : Nat) (tail : List Nat)
    (h0 : o0 < 64) (h1 : o1 < 64) (h2 : o2 < 64) (h3 : o3 < 64) :
    encodeToString (quantumBytes [o0, o1, o2, o3] ++ tail) =
      encodeChar o0 :: encodeChar o1 :: encodeChar o2 :: encodeChar o3 ::
        encodeToString tail := by
  simp only [quantumBytes, List.getD_cons_zero, List.getD_cons_succ, List.length_cons,
    List.length_nil, List.take, List.cons_append, List.nil_append, encodeToString]
  have e0 : ((o0 * 262144 + o1 * 4096 + o2 * 64 + o3) / 65536 % 256 * 65536 +
      (o0 * 262144 + o1 * 4096 + o2 * 64 + o3) / 256 % 256 * 256 +
      (o0 * 262144 + o1 * 4096 + o2 * 64 + o3) % 256) = o0 * 262144 + o1 * 4096 + o2 * 64 + o3 := by
    omega
  rw [e0]
  have f0 : (o0 * 262144 + o1 * 4096 + o2 * 64 + o3) / 262144 % 64 = o0 := by omega
  have f1 : (o0 * 262144 + o1 * 4096 + o2 * 64 + o3) / 4096 % 64 = o1 := by omega
  have f2 : (o0 * 262144 + o1 * 4096 + o2 * 64 + o3) / 64 % 64 = o2 := by omega
  have f3 : (o0 * 262144 + o1 * 4096 + o2 * 64 + o3) % 64 = o3 := by omega
  rw [f0, f1, f2, f3]
  rfl

theorem encodeToString_quantum3 (o0 o1 o2 : Nat)
    (h0 : o0 < 64) (h1 : o1 < 64) (h2 : o2 < 64) (hz : o2 % 4 = 0) :
    encodeToString (quantumBytes [o0, o1, o2]) =
      [encodeChar o0, encodeChar o1, encodeChar o2] := by
  simp only [quantumBytes, List.getD_cons_zero, List.getD_cons_succ, List.length_cons,
    List.length_nil, List.take, encodeToString, List.getD_nil]
  have f0 : (((o0 * 262144 + o1 * 4096 + o2 * 64 + 0) / 65536 % 256 * 65536 +
      (o0 * 262144 + o1 * 4096 + o2 * 64 + 0) / 256 % 256 * 256) / 262144 % 64) = o0 := by omega
  have f1 : (((o0 * 262144 + o1 * 4096 + o2 * 64 + 0) / 65536 % 256 * 65536 +
      (o0 * 262144 + o1 * 4096 + o2 * 64 + 0) / 256 % 256 * 256) / 4096 % 64) = o1 := by omega
  have f2 : (((o0 * 262144 + o1 * 4096 + o2 * 64 + 0) / 65536 % 256 * 65536 +
      (o0 * 262144 + o1 * 4096 + o2 * 64 + 0) / 256 % 256 * 256) / 64 % 64) = o2 := by omega
  rw [f0, f1, f2]

theorem CanonicalCursor_iff (s : List Nat) (h : CanonicalCursor s = true) :
    (∀ c ∈ s, c ≠ 10 ∧ c ≠ 13) ∧
      ∀ c out, s.getLast? = some c → decodeMap c = some out → out % 4 = 0 := by
  unfold CanonicalCursor at h
  rw [Bool.and_eq_true] at h
  obtain ⟨h1, h2⟩ := h
  constructor
  · intro c hc
    have := List.all_eq_true.1 h1 c hc
    simpa using this
  · intro c out hl hm
    simp only [hl, hm] at h2
    simpa using h2

theorem encodeToString_of_decodeString (s b : List Nat) (hc : CanonicalCursor s = true)
    (hd : decodeString s = .ok b) (hl : b.length = 8) : encodeToString b = s := by
  obtain ⟨hnl, hlast⟩ := CanonicalCursor_iff s hc
  have hlen := decodeFrom_length s 0 [] b hnl (by simp) hd
  have hs : s.length = 11 := by
    simp only [List.length_nil] at hlen
    omega
  obtain ⟨c0, c1, c2, c3, c4, c5, c6, c7, c8, c9, c10, rfl⟩ :
      ∃ c0 c1 c2 c3 c4 c5 c6 c7 c8 c9 c10, s = [c0, c1, c2, c3, c4, c5, c6, c7, c8, c9, c10] := by
    rcases s with _ | ⟨c0, _ | ⟨c1, _ | ⟨c2, _ | ⟨c3, _ | ⟨c4, _ | ⟨c5, _ | ⟨c6, _ | ⟨c7, _ |
      ⟨c8, _ | ⟨c9, _ | ⟨c10, _ | ⟨c11, r⟩⟩⟩⟩⟩⟩⟩⟩⟩⟩⟩⟩ <;> simp at hs
    exact ⟨_, _, _, _, _, _, _, _, _, _, _, rfl⟩
  have g0 : decodeFrom [c0, c1, c2, c3, c4, c5, c6, c7, c8, c9, c10] 0 [] = .ok b := hd
  clear hd hlen hs
  obtain ⟨o0, m0, ⟨h3, _⟩ | ⟨_, g1⟩⟩ := decodeFrom_cons_ok c0 _ _ _ _ (hnl c0 (by simp)) g0
  · simp at h3
  simp only [List.nil_append, List.cons_append] at g1
  obtain ⟨o1, m1, ⟨h3, _⟩ | ⟨_, g2⟩⟩ := decodeFrom_cons_ok c1 _ _ _ _ (hnl c1 (by simp)) g1
  · simp at h3
  simp only [List.nil_append, List.cons_append] at g2
  obtain ⟨o2, m2, ⟨h3, _⟩ | ⟨_, g3⟩⟩ := decodeFrom_cons_ok c2 _ _ _ _ (hnl c2 (by simp)) g2
  · simp at h3
  simp only [List.nil_append, List.cons_append] at g3
  obtain ⟨o3, m3, ⟨_, b3, g4, hb3⟩ | ⟨h3, _⟩⟩ := decodeFrom_cons_ok c3 _ _ _ _ (hnl c3 (by simp)) g3
  swap
  · simp at h3
  simp only [List.nil_append, List.cons_append] at g4 hb3
  obtain ⟨o4, m4, ⟨h3, _⟩ | ⟨_, g5⟩⟩ := decodeFrom_cons_ok c4 _ _ _ _ (hnl c4 (by simp)) g4
  · simp at h3
  simp only [List.nil_append, List.cons_append] at g5
  obtain ⟨o5, m5, ⟨h3, _⟩ | ⟨_, g6⟩⟩ := decodeFrom_cons_ok c5 _ _ _ _ (hnl c5 (by simp)) g5
  · simp at h3
  simp only [List.nil_append, List.cons_append] at g6
  obtain ⟨o6, m6, ⟨h3, _⟩ | ⟨_, g7⟩⟩ := decodeFrom_cons_ok c6 _ _ _ _ (hnl c6 (by simp)) g6
  · simp at h3
  simp only [List.nil_append, List.cons_append] at g7
  obtain ⟨o7, m7, ⟨_, b7, g8, hb7⟩ | ⟨h3, _⟩⟩ := decodeFrom_cons_ok c7 _ _ _ _ (hnl c7 (by simp)) g7
  swap
  · simp at h3
  simp only [List.nil_append, List.cons_append] at g8 hb7
  obtain ⟨o8, m8, ⟨h3, _⟩ | ⟨_, g9⟩⟩ := decodeFrom_cons_ok c8 _ _ _ _ (hnl c8 (by simp)) g8
  · simp at h3
  simp only [List.nil_append, List.cons_append] at g9
  obtain ⟨o9, m9, ⟨h3, _⟩ | ⟨_, g10⟩⟩ := decodeFrom_cons_ok c9 _ _ _ _ (hnl c9 (by simp)) g9
  · simp at h3
  simp only [List.nil_append, List.cons_append] at g10
  obtain ⟨o10, m10, ⟨h3, _⟩ | ⟨_, g11⟩⟩ := decodeFrom_cons_ok c10 _ _ _ _ (hnl c10 (by simp)) g10
  · simp at h3
  simp only [List.nil_append, List.cons_append] at g11
  rw [decodeFrom] at g11
  simp only [List.length_cons, List.length_nil, Except.ok.injEq] at g11
  subst g11
  subst hb7
  subst hb3
  have hz : o10 % 4 = 0 := hlast c10 o10 (by simp) m10
  obtain ⟨l0, e0⟩ := encodeChar_of_decodeMap _ _ m0
  obtain ⟨l1, e1⟩ := encodeChar_of_decodeMap _ _ m1
  obtain ⟨l2, e2⟩ := encodeChar_of_decodeMap _ _ m2
  obtain ⟨l3, e3⟩ := encodeChar_of_decodeMap _ _ m3
  obtain ⟨l4, e4⟩ := encodeChar_of_decodeMap _ _ m4
  obtain ⟨l5, e5⟩ := encodeChar_of_decodeMap _ _ m5
  obtain ⟨l6, e6⟩ := encodeChar_of_decodeMap _ _ m6
  obtain ⟨l7, e7⟩ := encodeChar_of_decodeMap _ _ m7
  obtain ⟨l8, e8⟩ := encodeChar_of_decodeMap _ _ m8
  obtain ⟨l9, e9⟩ := encodeChar_of_decodeMap _ _ m9
  obtain ⟨l10, e10⟩ := encodeChar_of_decodeMap _ _ m10
  rw [encodeToString_quantum4 _ _ _ _ _ l0 l1 l2 l3, encodeToString_quantum4 _ _ _ _ _ l4 l5 l6 l7,
    encodeToString_quantum3 _ _ _ l8 l9 l10 hz, e0, e1, e2, e3, e4, e5, e6, e7, e8, e9, e10]

theorem isURLSafeChar_encodeChar : ∀ v, v < 64 → isURLSafeChar (encodeChar v) = true := by
  decide

theorem isURLSafeChar_ne_pad (c : Nat) (h : isURLSafeChar c = true) : c ≠ 61 := by
  rintro rfl
  revert h
  decide

theorem encodeToString_urlSafe (b : List Nat) :
    ∀ c ∈ encodeToString b, isURLSafeChar c = true := by
  induction b using encodeToString.induct with
  | case1 x y z rest ih =>
    intro c hc
    simp only [encodeToString, List.mem_cons] at hc
    rcases hc with rfl | rfl | rfl | rfl | hc
    · exact isURLSafeChar_encodeChar _ (Nat.mod_lt _ (by norm_num))
    · exact isURLSafeChar_encodeChar _ (Nat.mod_lt _ (by norm_num))
    · exact isURLSafeChar_encodeChar _ (Nat.mod_lt _ (by norm_num))
    · exact isURLSafeChar_encodeChar _ (Nat.mod_lt _ (by norm_num))
    · exact ih c hc
  | case2 x y =>
    intro c hc
    simp only [encodeToString, List.mem_cons, List.mem_singleton, List.not_mem_nil, or_false] at hc
    rcases hc with rfl | rfl | rfl <;>
      exact isURLSafeChar_encodeChar _ (Nat.mod_lt _ (by norm_num))
  | case3 x =>
    intro c hc
    simp only [encodeToString, List.mem_cons, List.mem_singleton, List.not_mem_nil, or_false] at hc
    rcases hc with rfl | rfl <;>
      exact isURLSafeChar_encodeChar _ (Nat.mod_lt _ (by norm_num))
  | case4 =>
    intro c hc
    simp [encodeToString] at hc

/-! ## Decoding an encoded payload -/

theorem DecodeInt64Cursor_payload (u : Nat) (h : u < 18446744073709551616) :
    DecodeInt64Cursor (encodeToString (PutUint64 u)) = .ok (toInt64 u) := by
  unfold DecodeInt64Cursor
  rw [decodeString_encodeToString _ (PutUint64_lt u)]
  simp [PutUint64_length, Uint64_PutUint64 u h]

theorem DecodeTimeCursor_payload (u : Nat) (h : u < 18446744073709551616) :
    DecodeTimeCursor (encodeToString (PutUint64 u)) = .ok (Unix 0 (toInt64 u)).UTC := by
  unfold DecodeTimeCursor
  rw [decodeString_encodeToString _ (PutUint64_lt u)]
  simp [PutUint64_length, Uint64_PutUint64 u h]

theorem DecodeTimeAndInt64Cursor_payload (tu idu : Nat) (ht : tu < 18446744073709551616)
    (hi : idu < 18446744073709551616) :
    DecodeTimeAndInt64Cursor (encodeToString (PutUint64 tu ++ PutUint64 idu)) =
      .ok ((Unix 0 (toInt64 tu)).UTC, toInt64 idu) := by
  have hb : ∀ x ∈ PutUint64 tu ++ PutUint64 idu, x < 256 := by
    intro x hx
    rcases List.mem_append.1 hx with h | h
    · exact PutUint64_lt _ x h
    · exact PutUint64_lt _ x h
  have h1 : (PutUint64 tu ++ PutUint64 idu).take 8 = PutUint64 tu := by
    simp [PutUint64]
  have h2 : ((PutUint64 tu ++ PutUint64 idu).drop 8).take 8 = PutUint64 idu := by
    simp [PutUint64]
  unfold DecodeTimeAndInt64Cursor
  rw [decodeString_encodeToString _ hb]
  simp only [h1, h2, Uint64_PutUint64 tu ht, Uint64_PutUint64 idu hi]
  simp [PutUint64_length]

theorem DecodeTimeCursor_EncodeTimeCursor (t : Time) :
    DecodeTimeCursor (EncodeTimeCursor t) = .ok (Unix 0 t.UTC.UnixNano).UTC := by
  unfold EncodeTimeCursor
  rw [DecodeTimeCursor_payload _ (toUint64_lt _), toInt64_toUint64 _ (UnixNano_IsInt64 _)]

/-! ## Round trips -/

/-- C1: for every signed 64-bit integer `v`, decoding the integer cursor of `v`
returns `v` and no error. -/
theorem int64_round_trip (v : Int) (h : IsInt64 v) :
    DecodeInt64Cursor (EncodeInt64Cursor v) = .ok v := by
  unfold EncodeInt64Cursor
  rw [DecodeInt64Cursor_payload _ (toUint64_lt v), toInt64_toUint64 v h]

/-- C1 at the minimum `int64`. -/
theorem int64_round_trip_witness :
    IsInt64 (-9223372036854775808) ∧
      DecodeInt64Cursor (EncodeInt64Cursor (-9223372036854775808)) =
        .ok (-9223372036854775808) :=
  ⟨by decide, int64_round_trip (-9223372036854775808) (by decide)⟩

/-- C2: for every time `t` whose nanoseconds since the Unix epoch fit in an
`int64`, whatever its zone, sub-second part or side of the epoch, decoding the
time cursor of `t` returns without error the time `t.UTC()`, which denotes the
same instant as `t` and is located in UTC. -/
theorem time_round_trip (t : Time) (hw : t.WF) (hr : IsInt64 t.nanosSinceEpoch) :
    DecodeTimeCursor (EncodeTimeCursor t) = .ok t.UTC ∧
      t.UTC.Equal t = true ∧ t.UTC.loc = .UTC := by
  refine ⟨?_, ?_, rfl⟩
  · unfold EncodeTimeCursor
    rw [DecodeTimeCursor_payload _ (toUint64_lt _), toInt64_toUint64 _ (UnixNano_IsInt64 _),
      Unix_UnixNano t hw hr]
  · simp [Time.Equal, Time.UTC]

/-- C2 at 1969-12-31T23:59:59.999999999Z, held in another zone and with a
monotonic reading. -/
theorem time_round_trip_witness :
    (Time.mk 62135596799 999999999 (.zone "JST" 32400) (some 7)).WF ∧
    IsInt64 (Time.mk 62135596799 999999999 (.zone "JST" 32400) (some 7)).nanosSinceEpoch ∧
    (DecodeTimeCursor (EncodeTimeCursor (Time.mk 62135596799 999999999 (.zone "JST" 32400) (some 7)))
        = .ok (Time.mk 62135596799 999999999 (.zone "JST" 32400) (some 7)).UTC ∧
      (Time.mk 62135596799 999999999 (.zone "JST" 32400) (some 7)).UTC.Equal
        (Time.mk 62135596799 999999999 (.zone "JST" 32400) (some 7)) = true ∧
      (Time.mk 62135596799 999999999 (.zone "JST" 32400) (some 7)).UTC.loc = .UTC) :=
  ⟨by decide, by decide, time_round_trip _ (by decide) (by decide)⟩

/-- C3: for every time `t` whose nanoseconds since the epoch fit in an `int64`
and every signed 64-bit `id`, decoding the composite cursor of `(t, id)`
returns `(t.UTC(), id)` and no error. -/
theorem time_and_int64_round_trip (t : Time) (id : Int) (hw : t.WF)
    (hr : IsInt64 t.nanosSinceEpoch) (hid : IsInt64 id) :
    DecodeTimeAndInt64Cursor (EncodeTimeAndInt64Cursor t id) = .ok (t.UTC, id) := by
  unfold EncodeTimeAndInt64Cursor
  rw [DecodeTimeAndInt64Cursor_payload _ _ (toUint64_lt _) (toUint64_lt _),
    toInt64_toUint64 _ (UnixNano_IsInt64 _), toInt64_toUint64 _ hid, Unix_UnixNano t hw hr]

/-- C3 at the Unix epoch with the negative id `-42`. -/
theorem time_and_int64_round_trip_witness :
    (Time.mk 62135596800 0 .UTC none).WF ∧
    IsInt64 (Time.mk 62135596800 0 .UTC none).nanosSinceEpoch ∧ IsInt64 (-42) ∧
    DecodeTimeAndInt64Cursor (EncodeTimeAndInt64Cursor (Time.mk 62135596800 0 .UTC none) (-42)) =
      .ok ((Time.mk 62135596800 0 .UTC none).UTC, -42) :=
  ⟨by decide, by decide, by decide,
    time_and_int64_round_trip _ _ (by decide) (by decide) (by decide)⟩

/-- C4, as stated, fails at the zero time (January 1 of year 1): its time
cursor decodes without error to a time in the year 1754, a different
instant. -/
theorem zero_time_round_trip_fails :
    (Time.mk 0 0 .UTC none).WF ∧
    ∃ u, DecodeTimeCursor (EncodeTimeCursor (Time.mk 0 0 .UTC none)) = .ok u ∧
      u.Equal (Time.mk 0 0 .UTC none) = false := by
  refine ⟨by decide, ⟨55340232221, 128654848, .UTC, none⟩, ?_, ?_⟩
  · decide
  · decide

/-- C4 as amended: for every time `t`, decoding the time cursor of `t` returns
a time without error, and that time denotes the same instant as `t` exactly
when the nanoseconds from the Unix epoch to `t` fit in an `int64`. -/
theorem time_round_trip_iff_in_range (t : Time) (hw : t.WF) :
    ∃ u, DecodeTimeCursor (EncodeTimeCursor t) = .ok u ∧
      (u.Equal t = true ↔ IsInt64 t.nanosSinceEpoch) := by
  refine ⟨_, DecodeTimeCursor_EncodeTimeCursor t, ?_⟩
  constructor
  · intro he
    rw [Unix_zero _ (UnixNano_IsInt64 _)] at he
    have hn := UnixNano_IsInt64 t.UTC
    simp only [Time.Equal, Time.UTC, Bool.and_eq_true, beq_iff_eq, decide_eq_true_eq] at he
    obtain ⟨h1, h2⟩ := he
    unfold IsInt64 at hn ⊢
    simp only [Time.nanosSinceEpoch, internalToUnix, unixToInternal_eq, Time.UTC] at *
    omega
  · intro hr
    rw [Unix_UnixNano t hw hr]
    simp [Time.Equal, Time.UTC]

/-- C4 as amended, at the last representable instant
2262-04-11T23:47:16.854775807Z. -/
theorem time_round_trip_iff_in_range_witness :
    (Time.mk 71358968836 854775807 .UTC none).WF ∧
    ∃ u, DecodeTimeCursor (EncodeTimeCursor (Time.mk 71358968836 854775807 .UTC none)) = .ok u ∧
      (u.Equal (Time.mk 71358968836 854775807 .UTC none) = true ↔
        IsInt64 (Time.mk 71358968836 854775807 .UTC none).nanosSinceEpoch) :=
  ⟨by decide, time_round_trip_iff_in_range _ (by decide)⟩

/-! ## Errors -/

/-- C5: for every byte payload `b`, decoding the unpadded base64url text of `b`
fails with `ErrCursorLength` in `DecodeInt64Cursor` and in `DecodeTimeCursor`
when the length of `b` is not 8, and in `DecodeTimeAndInt64Cursor` when it is
not 16. -/
theorem wrong_length_is_ErrCursorLength (b : List Nat) (hb : ∀ x ∈ b, x < 256) :
    (b.length ≠ 8 → DecodeInt64Cursor (encodeToString b) = .error .ErrCursorLength) ∧
    (b.length ≠ 8 → DecodeTimeCursor (encodeToString b) = .error .ErrCursorLength) ∧
    (b.length ≠ 16 →
      DecodeTimeAndInt64Cursor (encodeToString b) = .error .ErrCursorLength) := by
  refine ⟨fun h => ?_, fun h => ?_, fun h => ?_⟩
  · unfold DecodeInt64Cursor
    rw [decodeString_encodeToString b hb]
    simp [h]
  · unfold DecodeTimeCursor
    rw [decodeString_encodeToString b hb]
    simp [h]
  · unfold DecodeTimeAndInt64Cursor
    rw [decodeString_encodeToString b hb]
    simp [h]

/-- C5 at the payload of seven zero bytes. -/
theorem wrong_length_is_ErrCursorLength_witness :
    (∀ x ∈ [0, 0, 0, 0, 0, 0, 0], x < 256) ∧
    [0, 0, 0, 0, 0, 0, 0].length ≠ 8 ∧ [0, 0, 0, 0, 0, 0, 0].length ≠ 16 ∧
    DecodeInt64Cursor (encodeToString [0, 0, 0, 0, 0, 0, 0]) = .error .ErrCursorLength ∧
    DecodeTimeCursor (encodeToString [0, 0, 0, 0, 0, 0, 0]) = .error .ErrCursorLength ∧
    DecodeTimeAndInt64Cursor (encodeToString [0, 0, 0, 0, 0, 0, 0]) =
      .error .ErrCursorLength :=
  ⟨by decide, by decide, by decide,
    (wrong_length_is_ErrCursorLength [0, 0, 0, 0, 0, 0, 0] (by decide)).1 (by decide),
    (wrong_length_is_ErrCursorLength [0, 0, 0, 0, 0, 0, 0] (by decide)).2.1 (by decide),
    (wrong_length_is_ErrCursorLength [0, 0, 0, 0, 0, 0, 0] (by decide)).2.2 (by decide)⟩

/-- C6: for every string `s`, `DecodeInt64Cursor s` does not panic; it returns
an error exactly when the base64 decoding of `s` fails or yields a number of
bytes other than 8; and when the base64 decoding fails the error is the
wrapped decoding error, not `ErrCursorLength`. -/
theorem DecodeInt64Cursor_errors (s : List Nat) :
    DecodeInt64Cursor s ≠ .panic ∧
    ((∃ e, DecodeInt64Cursor s = .error e) ↔
      ((∃ err, decodeString s = .error err) ∨
        ∃ b, decodeString s = .ok b ∧ b.length ≠ 8)) ∧
    (∀ err, decodeString s = .error err →
      DecodeInt64Cursor s = .error (.decodeCursor err) ∧
        DecodeInt64Cursor s ≠ .error .ErrCursorLength) := by
  unfold DecodeInt64Cursor
  cases hd : decodeString s with
  | error err => simp
  | ok b =>
    by_cases hl : b.length = 8
    · have hu : Uint64 b = some (b.getD 7 0 + b.getD 6 0 * 256 + b.getD 5 0 * 65536
          + b.getD 4 0 * 16777216 + b.getD 3 0 * 4294967296 + b.getD 2 0 * 1099511627776
          + b.getD 1 0 * 281474976710656 + b.getD 0 0 * 72057594037927936) := by
        simp [Uint64, hl]
      simp [hl, hu]
    · simp [hl]

/-! ## Order of cursor strings -/

/-- C7 does not hold of the code: `0 < 13` but the cursor of 13,
`AAAAAAAAAA0`, sorts before the cursor of 0, `AAAAAAAAAAA`; and `-1 < 0` but
the cursor of 0 sorts before the cursor of -1, `__________8`. -/
theorem int64_cursor_order_broken :
    EncodeInt64Cursor 0 = str "AAAAAAAAAAA" ∧
    EncodeInt64Cursor 13 = str "AAAAAAAAAA0" ∧
    EncodeInt64Cursor (-1) = str "__________8" ∧
    strLess (EncodeInt64Cursor 0) (EncodeInt64Cursor 13) = false ∧
    strLess (EncodeInt64Cursor 13) (EncodeInt64Cursor 0) = true ∧
    strLess (EncodeInt64Cursor (-1)) (EncodeInt64Cursor 0) = false ∧
    strLess (EncodeInt64Cursor 0) (EncodeInt64Cursor (-1)) = true := by
  decide

/-- C8 does not hold of the code: the Unix epoch is before the instant 13
nanoseconds later, but the cursor of the later instant sorts first; and the
instant one nanosecond before the epoch is before the epoch, but its cursor
does not sort before the cursor of the epoch. -/
theorem time_cursor_order_broken :
    (Time.mk 62135596800 0 .UTC none).Before (Time.mk 62135596800 13 .UTC none) = true ∧
    strLess (EncodeTimeCursor (Time.mk 62135596800 0 .UTC none))
      (EncodeTimeCursor (Time.mk 62135596800 13 .UTC none)) = false ∧
    strLess (EncodeTimeCursor (Time.mk 62135596800 13 .UTC none))
      (EncodeTimeCursor (Time.mk 62135596800 0 .UTC none)) = true ∧
    (Time.mk 62135596799 999999999 .UTC none).Before (Time.mk 62135596800 0 .UTC none) = true ∧
    strLess (EncodeTimeCursor (Time.mk 62135596799 999999999 .UTC none))
      (EncodeTimeCursor (Time.mk 62135596800 0 .UTC none)) = false := by
  decide

/-! ## Accepted strings and the wire format -/

/-- C9, as stated, fails at the string `AAAAAAAAAAB`: it is accepted with
value 0, the cursor of 0 is the different string `AAAAAAAAAAA`, and so two
distinct accepted strings decode to the same integer. -/
theorem decode_not_injective :
    DecodeInt64Cursor (str "AAAAAAAAAAB") = .ok 0 ∧
    EncodeInt64Cursor 0 ≠ str "AAAAAAAAAAB" ∧
    DecodeInt64Cursor (str "AAAAAAAAAAA") = .ok 0 ∧
    str "AAAAAAAAAAA" ≠ str "AAAAAAAAAAB" := by
  decide

/-- C9 as amended: for every string `s` that `DecodeInt64Cursor` accepts with
value `v`, the value is an `int64`, its cursor `EncodeInt64Cursor v` is accepted
with the same value, and that cursor is `s` itself whenever `s` is canonical,
that is, has no line-break byte and a last character whose two low bits are
clear. -/
theorem encode_of_decode (s : List Nat) (v : Int) (hd : DecodeInt64Cursor s = .ok v) :
    IsInt64 v ∧ DecodeInt64Cursor (EncodeInt64Cursor v) = .ok v ∧
      (CanonicalCursor s = true → EncodeInt64Cursor v = s) := by
  unfold DecodeInt64Cursor at hd
  cases hs : decodeString s with
  | error e => simp [hs] at hd
  | ok b =>
    simp only [hs] at hd
    by_cases hl : b.length = 8
    · simp only [hl, ne_eq, not_true_eq_false, if_false] at hd
      cases hu : Uint64 b with
      | none => simp [hu] at hd
      | some u =>
        simp only [hu, Outcome.ok.injEq] at hd
        subst hd
        have hb := decodeFrom_lt s 0 [] b hs
        obtain ⟨hult, hput⟩ := PutUint64_of_Uint64 b u hl hb hu
        refine ⟨toInt64_IsInt64 u, ?_, fun hc => ?_⟩
        · unfold EncodeInt64Cursor
          rw [toUint64_toInt64 u hult, DecodeInt64Cursor_payload u hult]
        · unfold EncodeInt64Cursor
          rw [toUint64_toInt64 u hult, hput]
          exact encodeToString_of_decodeString s b hc hs hl
    · simp [hl] at hd

/-- C9 as amended, at the canonical string `AAAAAEmWAtI`, the cursor of
1234567890. -/
theorem encode_of_decode_witness :
    DecodeInt64Cursor (str "AAAAAEmWAtI") = .ok 1234567890 ∧
    CanonicalCursor (str "AAAAAEmWAtI") = true ∧
    IsInt64 1234567890 ∧
    DecodeInt64Cursor (EncodeInt64Cursor 1234567890) = .ok 1234567890 ∧
    EncodeInt64Cursor 1234567890 = str "AAAAAEmWAtI" :=
  ⟨by decide, by decide,
    (encode_of_decode (str "AAAAAEmWAtI") 1234567890 (by decide)).1,
    (encode_of_decode (str "AAAAAEmWAtI") 1234567890 (by decide)).2.1,
    (encode_of_decode (str "AAAAAEmWAtI") 1234567890 (by decide)).2.2 (by decide)⟩

/-- C10: for every signed 64-bit `v`, `EncodeInt64Cursor v` is the unpadded
base64url text of 8 bytes whose value, most significant byte first, is the
two's-complement bit pattern of `v`; it has exactly 11 characters, each from
`A-Z a-z 0-9 - _` and none of them `=`; 0 gives `AAAAAAAAAAA` and -1 gives
`__________8`. -/
theorem int64_wire_format (v : Int) (h : IsInt64 v) :
    (∃ payload : List Nat, payload.length = 8 ∧ (∀ x ∈ payload, x < 256) ∧
        bigEndianValue payload = twosComplement v ∧
        EncodeInt64Cursor v = encodeToString payload) ∧
      (EncodeInt64Cursor v).length = 11 ∧
      (∀ c ∈ EncodeInt64Cursor v, isURLSafeChar c = true ∧ c ≠ 61) ∧
      EncodeInt64Cursor 0 = str "AAAAAAAAAAA" ∧
      EncodeInt64Cursor (-1) = str "__________8" := by
  refine ⟨⟨PutUint64 (toUint64 v), rfl, PutUint64_lt _, ?_, rfl⟩, rfl, ?_, by decide, by decide⟩
  · rw [bigEndianValue_PutUint64 _ (toUint64_lt v), toUint64_eq_twosComplement v h]
  · intro c hc
    have := encodeToString_urlSafe _ c hc
    exact ⟨this, isURLSafeChar_ne_pad c this⟩

/-- C10 at `v = -1`. -/
theorem int64_wire_format_witness :
    IsInt64 (-1) ∧
    ((∃ payload : List Nat, payload.length = 8 ∧ (∀ x ∈ payload, x < 256) ∧
        bigEndianValue payload = twosComplement (-1) ∧
        EncodeInt64Cursor (-1) = encodeToString payload) ∧
      (EncodeInt64Cursor (-1)).length = 11 ∧
      (∀ c ∈ EncodeInt64Cursor (-1), isURLSafeChar c = true ∧ c ≠ 61) ∧
      EncodeInt64Cursor 0 = str "AAAAAAAAAAA" ∧
      EncodeInt64Cursor (-1) = str "__________8") :=
  ⟨by decide, int64_wire_format (-1) (by decide)⟩

/-! ## Wire format of the composite cursor -/

/-- C11: for every time `t` and integer `id`, in range or not, the payload of
`EncodeTimeAndInt64Cursor t id` is 16 bytes: the 8-byte payload of
`EncodeTimeCursor t` followed by the 8-byte payload of `EncodeInt64Cursor id`;
and the cursor text has exactly 22 characters, all of the base64url
alphabet. -/
theorem composite_wire_format (t : Time) (id : Int) :
    ∃ pt pid : List Nat,
      decodeString (EncodeTimeCursor t) = .ok pt ∧ pt.length = 8 ∧
      decodeString (EncodeInt64Cursor id) = .ok pid ∧ pid.length = 8 ∧
      decodeString (EncodeTimeAndInt64Cursor t id) = .ok (pt ++ pid) ∧
      (pt ++ pid).length = 16 ∧
      (EncodeTimeAndInt64Cursor t id).length = 22 ∧
      ∀ c ∈ EncodeTimeAndInt64Cursor t id, isURLSafeChar c = true := by
  refine ⟨PutUint64 (toUint64 t.UTC.UnixNano), PutUint64 (toUint64 id),
    decodeString_encodeToString _ (PutUint64_lt _), rfl,
    decodeString_encodeToString _ (PutUint64_lt _), rfl, ?_, rfl, rfl,
    encodeToString_urlSafe _⟩
  apply decodeString_encodeToString
  intro x hx
  rcases List.mem_append.1 hx with h | h
  · exact PutUint64_lt _ x h
  · exact PutUint64_lt _ x h

/-! ## Orders and directions -/

/-- C12: for every valid order `ord`, `EffectiveOrder ord DirNext` is `ord` and
`EffectiveOrder ord DirPrev` is the opposite order; (Ascending, Next) gives
Ascending, (Ascending, Previous) gives Descending, (Descending, Previous) gives
Ascending; and applying `DirPrev` twice returns `ord`. -/
theorem EffectiveOrder_valid (ord : Order) (h : ord = Ascending ∨ ord = Descending) :
    EffectiveOrder ord DirNext = some ord ∧
    EffectiveOrder ord DirPrev = some (if ord = Ascending then Descending else Ascending) ∧
    EffectiveOrder Ascending DirNext = some Ascending ∧
    EffectiveOrder Ascending DirPrev = some Descending ∧
    EffectiveOrder Descending DirPrev = some Ascending ∧
    (EffectiveOrder ord DirPrev).bind (fun o => EffectiveOrder o DirPrev) = some ord := by
  rcases h with rfl | rfl <;> decide

/-- C12 at `Descending`. -/
theorem EffectiveOrder_valid_witness :
    (Descending = Ascending ∨ Descending = Descending) ∧
    (EffectiveOrder Descending DirNext = some Descending ∧
    EffectiveOrder Descending DirPrev =
      some (if Descending = Ascending then Descending else Ascending) ∧
    EffectiveOrder Ascending DirNext = some Ascending ∧
    EffectiveOrder Ascending DirPrev = some Descending ∧
    EffectiveOrder Descending DirPrev = some Ascending ∧
    (EffectiveOrder Descending DirPrev).bind (fun o => EffectiveOrder o DirPrev) =
      some Descending) :=
  ⟨by decide, EffectiveOrder_valid Descending (by decide)⟩

/-- C13: `Reverse` maps Ascending to Descending and Descending to Ascending,
and panics for every other order value: it returns a value exactly for the two
valid orders. -/
theorem Reverse_spec (o : Order) :
    Reverse Ascending = some Descending ∧ Reverse Descending = some Ascending ∧
    (o ≠ Ascending → o ≠ Descending → Reverse o = none) ∧
    ((∃ r, Reverse o = some r) ↔ (o = Ascending ∨ o = Descending)) := by
  refine ⟨by decide, by decide, ?_, ?_⟩
  · intro h1 h2
    simp [Reverse, h1, h2]
  · have hda : Descending ≠ Ascending := by decide
    unfold Reverse
    by_cases h1 : o = Ascending
    · simp [h1]
    · by_cases h2 : o = Descending
      · simp [h2, hda]
      · simp [h1, h2]

/-- C14: `InequalityOp` returns `>` for Ascending and `<` for Descending, and
panics for every other order value. -/
theorem InequalityOp_spec (o : Order) :
    InequalityOp Ascending = some (str ">") ∧ InequalityOp Descending = some (str "<") ∧
    (o ≠ Ascending → o ≠ Descending → InequalityOp o = none) := by
  refine ⟨by decide, by decide, ?_⟩
  intro h1 h2
  simp [InequalityOp, h1, h2]

/-- C15: `SQLKeyword` returns a keyword for every order value: `DESC` exactly
when the order is Descending, and `ASC` for every other value, valid or not. -/
theorem SQLKeyword_total (o : Order) :
    (SQLKeyword o = str "DESC" ↔ o = Descending) ∧
    (o ≠ Descending → SQLKeyword o = str "ASC") ∧
    (SQLKeyword o = str "ASC" ∨ SQLKeyword o = str "DESC") := by
  have hne : str "ASC" ≠ str "DESC" := by decide
  have hda : Descending ≠ Ascending := by decide
  unfold SQLKeyword
  by_cases h1 : o = Ascending
  · simp [h1, hne, hda.symm]
  · by_cases h2 : o = Descending
    · simp [h2, hda]
    · simp [h1, h2, hne]

/-! ## SQL fragments -/

/-- C16: for all column names, `StableWhereTimeAndID timeCol idCol Descending`
is `(timeCol < ?) OR (timeCol = ? AND idCol < ?)` and the Ascending fragment is
the same text with `>` for both `<`; the fragment is the window template with
its three placeholders `?`, compared with the time column, the time column
and the id column in that order, and it has three `?` characters besides those
of the column names. -/
theorem StableWhereTimeAndID_text (timeCol idCol : List Nat) (ord : Order) :
    StableWhereTimeAndID timeCol idCol Descending =
      str "(" ++ timeCol ++ str " < ?) OR (" ++ timeCol ++ str " = ? AND " ++ idCol ++
        str " < ?)" ∧
    StableWhereTimeAndID timeCol idCol Ascending =
      str "(" ++ timeCol ++ str " > ?) OR (" ++ timeCol ++ str " = ? AND " ++ idCol ++
        str " > ?)" ∧
    StableWhereTimeAndID timeCol idCol ord =
      windowText timeCol idCol (if ord = Descending then str "<" else str ">")
        (if ord = Descending then str "<" else str ">") (str "?") (str "?") (str "?") ∧
    (StableWhereTimeAndID timeCol idCol ord).count 63 =
      3 + 2 * timeCol.count 63 + idCol.count 63 := by
  have e1 : str " " ++ (str "<" ++ (str " ?)" ++ str " OR (")) = str " < ?) OR (" := by decide
  have e2 : str " " ++ (str "<" ++ str " ?)") = str " < ?)" := by decide
  have e3 : str " " ++ (str ">" ++ (str " ?)" ++ str " OR (")) = str " > ?) OR (" := by decide
  have e4 : str " " ++ (str ">" ++ str " ?)") = str " > ?)" := by decide
  have hda : Ascending ≠ Descending := by decide
  have f1 : str ") OR (" = str ")" ++ str " OR (" := by decide
  have f2 : str " = ? AND " = str " = " ++ (str "?" ++ str " AND ") := by decide
  have f3 : str " ?)" = str " " ++ (str "?" ++ str ")") := by decide
  refine ⟨?_, ?_, ?_, ?_⟩
  · simp only [StableWhereTimeAndID, if_true, ← e1, ← e2, List.append_assoc]
  · simp only [StableWhereTimeAndID, hda, if_false, ← e3, ← e4, List.append_assoc]
  · simp only [StableWhereTimeAndID, windowText, f1, f2, f3, List.append_assoc]
  · have c1 : (str "(").count 63 = 0 := by decide
    have c2 : (str " ").count 63 = 0 := by decide
    have c3 : (str "<").count 63 = 0 := by decide
    have c4 : (str ">").count 63 = 0 := by decide
    have c5 : (str " ?)").count 63 = 1 := by decide
    have c6 : (str " OR (").count 63 = 0 := by decide
    have c7 : (str " = ? AND ").count 63 = 1 := by decide
    unfold StableWhereTimeAndID
    by_cases h : ord = Descending
    · simp only [h, if_true, List.count_append, c1, c2, c3, c5, c6, c7]
      omega
    · simp only [h, if_false, List.count_append, c1, c2, c4, c5, c6, c7]
      omega

/-- C17: the Ascending and Descending fragments are the window template with
the operators `>` and `<`; read on a row `(rt, rid)` of linearly ordered
columns with the placeholders bound to `(t, t, id)`, the Ascending window holds
exactly when `(t, id)` is strictly below `(rt, rid)` in lexicographic order and
the Descending window exactly when `(rt, rid)` is strictly below `(t, id)`; the
boundary row satisfies neither window, and every other row satisfies exactly
one of the two. -/
theorem window_is_strict_lexicographic {τ ι : Type} [LinearOrder τ] [LinearOrder ι]
    (timeCol idCol : List Nat) (rt t : τ) (rid id : ι) :
    StableWhereTimeAndID timeCol idCol Ascending =
      windowText timeCol idCol (str ">") (str ">") (str "?") (str "?") (str "?") ∧
    StableWhereTimeAndID timeCol idCol Descending =
      windowText timeCol idCol (str "<") (str "<") (str "?") (str "?") (str "?") ∧
    (windowHolds (str ">") (str ">") rt rid t t id = true ↔ toLex (t, id) < toLex (rt, rid)) ∧
    (windowHolds (str "<") (str "<") rt rid t t id = true ↔ toLex (rt, rid) < toLex (t, id)) ∧
    windowHolds (str ">") (str ">") t id t t id = false ∧
    windowHolds (str "<") (str "<") t id t t id = false ∧
    ((rt, rid) ≠ (t, id) →
      (windowHolds (str ">") (str ">") rt rid t t id = true ∧
          windowHolds (str "<") (str "<") rt rid t t id = false) ∨
        (windowHolds (str ">") (str ">") rt rid t t id = false ∧
          windowHolds (str "<") (str "<") rt rid t t id = true)) := by
  have e1 : str ") OR (" = str ")" ++ str " OR (" := by decide
  have e2 : str " = ? AND " = str " = " ++ (str "?" ++ str " AND ") := by decide
  have e3 : str " ?)" = str " " ++ (str "?" ++ str ")") := by decide
  have hda : Ascending ≠ Descending := by decide
  have n1 : str ">" ≠ str "<" := by decide
  have n2 : str "=" ≠ str "<" := by decide
  have n3 : str "=" ≠ str ">" := by decide
  have hgt : ∀ {α : Type} [LinearOrder α] (a b : α), cmpHolds (str ">") a b = decide (b < a) := by
    intro α _ a b
    simp [cmpHolds, n1]
  have hlt : ∀ {α : Type} [LinearOrder α] (a b : α), cmpHolds (str "<") a b = decide (a < b) := by
    intro α _ a b
    simp [cmpHolds]
  have heq : ∀ {α : Type} [LinearOrder α] (a b : α), cmpHolds (str "=") a b = decide (a = b) := by
    intro α _ a b
    simp [cmpHolds, n2, n3]
  have hA : windowHolds (str ">") (str ">") rt rid t t id = true ↔
      toLex (t, id) < toLex (rt, rid) := by
    simp only [windowHolds, hgt, heq, Prod.Lex.lt_iff, Bool.or_eq_true, Bool.and_eq_true,
      decide_eq_true_eq]
    constructor
    · rintro (h | ⟨h, h2⟩)
      · exact Or.inl h
      · exact Or.inr ⟨h.symm, h2⟩
    · rintro (h | ⟨h, h2⟩)
      · exact Or.inl h
      · exact Or.inr ⟨h.symm, h2⟩
  have hD : windowHolds (str "<") (str "<") rt rid t t id = true ↔
      toLex (rt, rid) < toLex (t, id) := by
    simp only [windowHolds, hlt, heq, Prod.Lex.lt_iff, Bool.or_eq_true, Bool.and_eq_true,
      decide_eq_true_eq]
  refine ⟨?_, ?_, hA, hD, ?_, ?_, ?_⟩
  · simp only [StableWhereTimeAndID, windowText, hda, if_false, e1, e2, e3, List.append_assoc]
  · simp only [StableWhereTimeAndID, windowText, if_true, e1, e2, e3, List.append_assoc]
  · simp [windowHolds, hgt, heq]
  · simp [windowHolds, hlt, heq]
  · intro hne
    have hne2 : toLex (rt, rid) ≠ toLex (t, id) := fun h => hne (toLex.injective h)
    rcases lt_trichotomy (toLex (rt, rid)) (toLex (t, id)) with h | h | h
    · right
      refine ⟨?_, hD.2 h⟩
      rw [Bool.eq_false_iff]
      intro hc
      exact lt_asymm h (hA.1 hc)
    · exact absurd h hne2
    · left
      refine ⟨hA.2 h, ?_⟩
      rw [Bool.eq_false_iff]
      intro hc
      exact lt_asymm h (hD.1 hc)

theorem OrderClause_loop_pos (kw : List Nat) (cols : List (List Nat)) :
    ∀ (i : Nat) (b : List Nat), 0 < i →
      OrderClause.loop kw i cols b =
        b ++ (cols.map (fun c => str ", " ++ (c ++ str " " ++ kw))).flatten := by
  induction cols with
  | nil =>
    intro i b _
    simp [OrderClause.loop]
  | cons c cs ih =>
    intro i b hi
    rw [OrderClause.loop, ih (i + 1) _ (by omega)]
    simp [hi, List.append_assoc]

theorem intercalate_cons (sep x : List Nat) (xs : List (List Nat)) :
    sep.intercalate (x :: xs) = x ++ (xs.map (fun c => sep ++ c)).flatten := by
  induction xs generalizing x with
  | nil => simp [List.intercalate]
  | cons y ys ih =>
    have h := ih y
    simp only [List.intercalate, List.intersperse, List.flatten, List.map] at h ⊢
    rw [h, List.append_assoc]

/-- C18: for every list of columns and every order, `OrderClause cols ord` is
the columns in their order, each followed by a space and the SQL keyword of
`ord`, joined by `, `; it is empty for the empty list, and
`OrderClause [created_at, id] Descending` is `created_at DESC, id DESC`. -/
theorem OrderClause_eq_join (cols : List (List Nat)) (ord : Order) :
    OrderClause cols ord =
      (str ", ").intercalate (cols.map (fun c => c ++ str " " ++ SQLKeyword ord)) ∧
    OrderClause [] ord = [] ∧
    OrderClause [str "created_at", str "id"] Descending = str "created_at DESC, id DESC" := by
  refine ⟨?_, rfl, by decide⟩
  cases cols with
  | nil => rfl
  | cons c cs =>
    rw [List.map_cons, intercalate_cons]
    simp only [OrderClause, OrderClause.loop]
    rw [OrderClause_loop_pos _ _ _ _ (by omega)]
    simp [List.map_map, Function.comp_def]

/-! ## Pages -/

/-- C19: `EnsureDefaults` sets `Limit` to 50 when it is `≤ 0` and keeps it
otherwise, sets `Dir` to `DirNext` when it is neither `DirNext` nor `DirPrev`
and keeps it otherwise, and keeps `Cursor`; afterwards `Limit` is positive and
`Dir` is valid, and a second `EnsureDefaults` changes nothing. -/
theorem EnsureDefaults_spec (p : Page) :
    (p.Limit ≤ 0 → (EnsureDefaults p).Limit = 50) ∧
    (0 < p.Limit → (EnsureDefaults p).Limit = p.Limit) ∧
    (p.Dir ≠ DirNext → p.Dir ≠ DirPrev → (EnsureDefaults p).Dir = DirNext) ∧
    (p.Dir = DirNext ∨ p.Dir = DirPrev → (EnsureDefaults p).Dir = p.Dir) ∧
    (EnsureDefaults p).Cursor = p.Cursor ∧
    0 < (EnsureDefaults p).Limit ∧
    ((EnsureDefaults p).Dir = DirNext ∨ (EnsureDefaults p).Dir = DirPrev) ∧
    EnsureDefaults (EnsureDefaults p) = EnsureDefaults p := by
  obtain ⟨c, l, d⟩ := p
  unfold EnsureDefaults
  simp only [DirNext, DirPrev]
  by_cases hl : l ≤ 0 <;> by_cases h1 : d = 1 <;> by_cases h2 : d = 2 <;>
    simp [hl, h1, h2] <;> omega

/-! ## Single-column composition -/

theorem DecodeInt64Cursor_nil : DecodeInt64Cursor [] = .error .ErrCursorLength := by decide

theorem DecodeTimeCursor_nil : DecodeTimeCursor [] = .error .ErrCursorLength := by decide

theorem EnsureDefaults_Cursor (p : Page) : (EnsureDefaults p).Cursor = p.Cursor := by
  obtain ⟨c, l, d⟩ := p
  unfold EnsureDefaults
  by_cases hl : l ≤ 0 <;> by_cases h1 : d = DirNext <;> by_cases h2 : d = DirPrev <;>
    simp [hl, h1, h2]

theorem EnsureDefaults_Dir (p : Page) :
    (EnsureDefaults p).Dir = DirNext ∨ (EnsureDefaults p).Dir = DirPrev := by
  obtain ⟨c, l, d⟩ := p
  unfold EnsureDefaults
  by_cases hl : l ≤ 0 <;> by_cases h1 : d = DirNext <;> by_cases h2 : d = DirPrev <;>
    simp [hl, h1, h2]

/-- For a valid order the effective order exists, is valid, and has an
inequality operator. -/
theorem EffectiveOrder_of_valid (ord : Order) (dir : Dir)
    (h : ord = Ascending ∨ ord = Descending) :
    ∃ eff op, EffectiveOrder ord dir = some eff ∧ InequalityOp eff = some op ∧
      (eff = Ascending ∨ eff = Descending) := by
  unfold EffectiveOrder
  by_cases hd : dir = DirPrev
  · rcases h with rfl | rfl
    · exact ⟨Descending, str "<", by simp [hd]; decide, by decide, Or.inr rfl⟩
    · exact ⟨Ascending, str ">", by simp [hd]; decide, by decide, Or.inl rfl⟩
  · rcases h with rfl | rfl
    · exact ⟨Ascending, str ">", by simp [hd], by decide, Or.inl rfl⟩
    · exact ⟨Descending, str "<", by simp [hd], by decide, Or.inr rfl⟩

/-- The composer reproduces the test `DESC DirNext with cursor`. -/
theorem QueryByID_example :
    QueryByID exampleBase examplePage Descending (str "id") PlaceholderQuestion =
      some (str "SELECT id FROM posts WHERE id < ? ORDER BY id DESC LIMIT ?",
        [Arg.int64 100, Arg.int 7]) := by
  decide

/-- C20: for every base text, column, placeholder function, valid order and
page, with `eff` the effective order for the defaulted direction, `op` its
inequality operator and `L` the defaulted limit: with an empty cursor
`QueryByID` and `QueryByTime` return `base ORDER BY col kw LIMIT ph(1)` with the
bound values `[L]`; when the cursor decodes to `v`, `QueryByID` returns
`base J col op ph(1) ORDER BY col kw LIMIT ph(2)` with `[v, L]`, where `J` is
` WHERE ` or ` AND `; and `QueryByTime` does the same with the time decoder. -/
theorem single_column_composition (base col : List Nat) (ph : Placeholder) (ord : Order)
    (p : Page) (hord : ord = Ascending ∨ ord = Descending) :
    ∃ (eff : Order) (op J : List Nat),
      EffectiveOrder ord (EnsureDefaults p).Dir = some eff ∧
      InequalityOp eff = some op ∧
      J = (if hasWhere (ToLower base) then str " AND " else str " WHERE ") ∧
      (J = str " WHERE " ∨ J = str " AND ") ∧
      (p.Cursor = [] →
        QueryByID base p ord col ph =
            some (base ++ str " ORDER BY " ++ col ++ str " " ++ SQLKeyword eff ++
              str " LIMIT " ++ ph 1, [Arg.int (EnsureDefaults p).Limit]) ∧
          QueryByTime base p ord col ph =
            some (base ++ str " ORDER BY " ++ col ++ str " " ++ SQLKeyword eff ++
              str " LIMIT " ++ ph 1, [Arg.int (EnsureDefaults p).Limit])) ∧
      (∀ v, DecodeInt64Cursor p.Cursor = .ok v →
        QueryByID base p ord col ph =
          some (base ++ J ++ col ++ str " " ++ op ++ str " " ++ ph 1 ++ str " ORDER BY " ++
            col ++ str " " ++ SQLKeyword eff ++ str " LIMIT " ++ ph 2,
            [Arg.int64 v, Arg.int (EnsureDefaults p).Limit])) ∧
      (∀ tm, DecodeTimeCursor p.Cursor = .ok tm →
        QueryByTime base p ord col ph =
          some (base ++ J ++ col ++ str " " ++ op ++ str " " ++ ph 1 ++ str " ORDER BY " ++
            col ++ str " " ++ SQLKeyword eff ++ str " LIMIT " ++ ph 2,
            [Arg.time tm, Arg.int (EnsureDefaults p).Limit])) := by
  obtain ⟨eff, op, heff, hop, _⟩ := EffectiveOrder_of_valid ord (EnsureDefaults p).Dir hord
  refine ⟨eff, op, _, heff, hop, rfl, ?_, ?_, ?_, ?_⟩
  · split_ifs
    · exact Or.inr rfl
    · exact Or.inl rfl
  · intro hc
    constructor
    · simp [QueryByID, heff, EnsureDefaults_Cursor, hc]
    · simp [QueryByTime, heff, EnsureDefaults_Cursor, hc]
  · intro v hv
    have hne : p.Cursor ≠ [] := by
      intro h
      rw [h, DecodeInt64Cursor_nil] at hv
      cases hv
    simp only [QueryByID, heff, EnsureDefaults_Cursor, hne, ne_eq, not_false_eq_true, if_true, hv,
      hop, appendWhere]
    split_ifs <;> simp [List.append_assoc]
  · intro tm hv
    have hne : p.Cursor ≠ [] := by
      intro h
      rw [h, DecodeTimeCursor_nil] at hv
      cases hv
    simp only [QueryByTime, heff, EnsureDefaults_Cursor, hne, ne_eq, not_false_eq_true, if_true, hv,
      hop, appendWhere]
    split_ifs <;> simp [List.append_assoc]

/-- C20 at the query of the test `DESC DirNext with cursor`. -/
theorem single_column_composition_witness :
    (Descending = Ascending ∨ Descending = Descending) ∧
    ∃ (eff : Order) (op J : List Nat),
      EffectiveOrder Descending (EnsureDefaults examplePage).Dir = some eff ∧
      InequalityOp eff = some op ∧
      J = (if hasWhere (ToLower exampleBase) then str " AND " else str " WHERE ") ∧
      (J = str " WHERE " ∨ J = str " AND ") ∧
      (examplePage.Cursor = [] →
        QueryByID exampleBase examplePage Descending (str "id") PlaceholderQuestion =
            some (exampleBase ++ str " ORDER BY " ++ str "id" ++ str " " ++ SQLKeyword eff ++
              str " LIMIT " ++ PlaceholderQuestion 1,
              [Arg.int (EnsureDefaults examplePage).Limit]) ∧
          QueryByTime exampleBase examplePage Descending (str "id") PlaceholderQuestion =
            some (exampleBase ++ str " ORDER BY " ++ str "id" ++ str " " ++ SQLKeyword eff ++
              str " LIMIT " ++ PlaceholderQuestion 1,
              [Arg.int (EnsureDefaults examplePage).Limit])) ∧
      (∀ v, DecodeInt64Cursor examplePage.Cursor = .ok v →
        QueryByID exampleBase examplePage Descending (str "id") PlaceholderQuestion =
          some (exampleBase ++ J ++ str "id" ++ str " " ++ op ++ str " " ++
            PlaceholderQuestion 1 ++ str " ORDER BY " ++
            str "id" ++ str " " ++ SQLKeyword eff ++ str " LIMIT " ++ PlaceholderQuestion 2,
            [Arg.int64 v, Arg.int (EnsureDefaults examplePage).Limit])) ∧
      (∀ tm, DecodeTimeCursor examplePage.Cursor = .ok tm →
        QueryByTime exampleBase examplePage Descending (str "id") PlaceholderQuestion =
          some (exampleBase ++ J ++ str "id" ++ str " " ++ op ++ str " " ++
            PlaceholderQuestion 1 ++ str " ORDER BY " ++
            str "id" ++ str " " ++ SQLKeyword eff ++ str " LIMIT " ++ PlaceholderQuestion 2,
            [Arg.time tm, Arg.int (EnsureDefaults examplePage).Limit])) :=
  ⟨by decide, single_column_composition exampleBase (str "id") PlaceholderQuestion Descending
    examplePage (by decide)⟩

/-! ## The composers on each kind of cursor -/

theorem Uint64_isSome (b : List Nat) (h : 8 ≤ b.length) : ∃ u, Uint64 b = some u := by
  unfold Uint64
  rw [if_neg (by omega)]
  exact ⟨_, rfl⟩

theorem DecodeInt64Cursor_ne_panic (s : List Nat) : DecodeInt64Cursor s ≠ .panic := by
  unfold DecodeInt64Cursor
  cases decodeString s with
  | error e => simp
  | ok b =>
    by_cases hl : b.length = 8
    · obtain ⟨u, hu⟩ := Uint64_isSome b (by omega)
      simp [hl, hu]
    · simp [hl]

theorem DecodeTimeCursor_ne_panic (s : List Nat) : DecodeTimeCursor s ≠ .panic := by
  unfold DecodeTimeCursor
  cases decodeString s with
  | error e => simp
  | ok b =>
    by_cases hl : b.length = 8
    · obtain ⟨u, hu⟩ := Uint64_isSome b (by omega)
      simp [hl, hu]
    · simp [hl]

theorem DecodeTimeAndInt64Cursor_ne_panic (s : List Nat) :
    DecodeTimeAndInt64Cursor s ≠ .panic := by
  unfold DecodeTimeAndInt64Cursor
  cases decodeString s with
  | error e => simp
  | ok b =>
    by_cases hl : b.length = 16
    · obtain ⟨u, hu⟩ := Uint64_isSome (b.take 8) (by simp [hl])
      obtain ⟨w, hw⟩ := Uint64_isSome ((b.drop 8).take 8) (by simp [hl])
      simp [hl, hu, hw]
    · simp [hl]

theorem DecodeTimeAndInt64Cursor_nil :
    DecodeTimeAndInt64Cursor [] = .error .ErrCursorLength := by decide

/-- For a valid order the effective order is the order itself, or its opposite
for `DirPrev`; it is valid, and its operator and keyword go together. -/
theorem EffectiveOrder_cases (ord : Order) (dir : Dir)
    (h : ord = Ascending ∨ ord = Descending) :
    ∃ eff, EffectiveOrder ord dir = some eff ∧
      eff = (if dir = DirPrev then (if ord = Ascending then Descending else Ascending)
        else ord) ∧
      ((eff = Ascending ∧ InequalityOp eff = some (str ">") ∧ SQLKeyword eff = str "ASC") ∨
        (eff = Descending ∧ InequalityOp eff = some (str "<") ∧
          SQLKeyword eff = str "DESC")) := by
  unfold EffectiveOrder
  by_cases hd : dir = DirPrev
  · rcases h with rfl | rfl
    · exact ⟨Descending, by simp [hd]; decide, by simp [hd], Or.inr ⟨rfl, by decide, by decide⟩⟩
    · exact ⟨Ascending, by simp [hd]; decide, by simp [hd]; decide,
        Or.inl ⟨rfl, by decide, by decide⟩⟩
  · rcases h with rfl | rfl
    · exact ⟨Ascending, by simp [hd], by simp [hd], Or.inl ⟨rfl, by decide, by decide⟩⟩
    · exact ⟨Descending, by simp [hd], by simp [hd], Or.inr ⟨rfl, by decide, by decide⟩⟩

theorem EnsureDefaults_Limit (p : Page) :
    (EnsureDefaults p).Limit = if 0 < p.Limit then p.Limit else 50 := by
  obtain ⟨c, l, d⟩ := p
  unfold EnsureDefaults
  by_cases hl : l ≤ 0 <;> by_cases h1 : d = DirNext <;> by_cases h2 : d = DirPrev <;>
    simp [hl, h1, h2] <;> omega

theorem EnsureDefaults_Dir_mk (c : List Nat) (l : Int) (d : Dir) :
    (EnsureDefaults ⟨c, l, d⟩).Dir = (EnsureDefaults ⟨[], l, d⟩).Dir := by
  unfold EnsureDefaults
  by_cases hl : l ≤ 0 <;> by_cases h1 : d = DirNext <;> by_cases h2 : d = DirPrev <;>
    simp [hl, h1, h2]

/-- `QueryByID` on a cursor that decodes. -/
theorem QueryByID_window (base col : List Nat) (ph : Placeholder) (ord eff : Order) (p : Page)
    (op : List Nat) (v : Int)
    (heff : EffectiveOrder ord (EnsureDefaults p).Dir = some eff)
    (hop : InequalityOp eff = some op) (hv : DecodeInt64Cursor p.Cursor = .ok v) :
    QueryByID base p ord col ph =
      some (base ++ appendWhere base (col ++ str " " ++ op ++ str " " ++ ph 1) ++
        str " ORDER BY " ++ col ++ str " " ++ SQLKeyword eff ++ str " LIMIT " ++ ph 2,
        [Arg.int64 v, Arg.int (EnsureDefaults p).Limit]) := by
  have hne : p.Cursor ≠ [] := by
    intro h
    rw [h, DecodeInt64Cursor_nil] at hv
    cases hv
  simp [QueryByID, heff, EnsureDefaults_Cursor, hne, hv, hop]

/-- `QueryByID` on an empty or rejected cursor. -/
theorem QueryByID_plain (base col : List Nat) (ph : Placeholder) (ord eff : Order) (p : Page)
    (heff : EffectiveOrder ord (EnsureDefaults p).Dir = some eff)
    (hc : p.Cursor = [] ∨ ∃ e, DecodeInt64Cursor p.Cursor = .error e) :
    QueryByID base p ord col ph =
      some (base ++ str " ORDER BY " ++ col ++ str " " ++ SQLKeyword eff ++ str " LIMIT " ++
        ph 1, [Arg.int (EnsureDefaults p).Limit]) := by
  rcases hc with hc | ⟨e, he⟩
  · simp [QueryByID, heff, EnsureDefaults_Cursor, hc]
  · by_cases hne : p.Cursor = []
    · simp [QueryByID, heff, EnsureDefaults_Cursor, hne]
    · simp [QueryByID, heff, EnsureDefaults_Cursor, hne, he]

/-- `QueryByTime` on a cursor that decodes. -/
theorem QueryByTime_window (base col : List Nat) (ph : Placeholder) (ord eff : Order) (p : Page)
    (op : List Nat) (tm : Time)
    (heff : EffectiveOrder ord (EnsureDefaults p).Dir = some eff)
    (hop : InequalityOp eff = some op) (hv : DecodeTimeCursor p.Cursor = .ok tm) :
    QueryByTime base p ord col ph =
      some (base ++ appendWhere base (col ++ str " " ++ op ++ str " " ++ ph 1) ++
        str " ORDER BY " ++ col ++ str " " ++ SQLKeyword eff ++ str " LIMIT " ++ ph 2,
        [Arg.time tm, Arg.int (EnsureDefaults p).Limit]) := by
  have hne : p.Cursor ≠ [] := by
    intro h
    rw [h, DecodeTimeCursor_nil] at hv
    cases hv
  simp [QueryByTime, heff, EnsureDefaults_Cursor, hne, hv, hop]

/-- `QueryByTime` on an empty or rejected cursor. -/
theorem QueryByTime_plain (base col : List Nat) (ph : Placeholder) (ord eff : Order) (p : Page)
    (heff : EffectiveOrder ord (EnsureDefaults p).Dir = some eff)
    (hc : p.Cursor = [] ∨ ∃ e, DecodeTimeCursor p.Cursor = .error e) :
    QueryByTime base p ord col ph =
      some (base ++ str " ORDER BY " ++ col ++ str " " ++ SQLKeyword eff ++ str " LIMIT " ++
        ph 1, [Arg.int (EnsureDefaults p).Limit]) := by
  rcases hc with hc | ⟨e, he⟩
  · simp [QueryByTime, heff, EnsureDefaults_Cursor, hc]
  · by_cases hne : p.Cursor = []
    · simp [QueryByTime, heff, EnsureDefaults_Cursor, hne]
    · simp [QueryByTime, heff, EnsureDefaults_Cursor, hne, he]

/-- `QueryByTimeAndID` on a cursor that decodes. -/
theorem QueryByTimeAndID_window (base timeCol idCol : List Nat) (ph : Placeholder)
    (ord eff : Order) (p : Page) (tm : Time) (id : Int)
    (heff : EffectiveOrder ord (EnsureDefaults p).Dir = some eff)
    (hv : DecodeTimeAndInt64Cursor p.Cursor = .ok (tm, id)) :
    QueryByTimeAndID base p ord timeCol idCol ph =
      some (base ++ appendWhere base (windowText timeCol idCol
          (if eff = Descending then str "<" else str ">")
          (if eff = Descending then str "<" else str ">") (ph 1) (ph 2) (ph 3)) ++
        str " ORDER BY " ++ timeCol ++ str " " ++ SQLKeyword eff ++ str ", " ++ idCol ++
        str " " ++ SQLKeyword eff ++ str " LIMIT " ++ ph 4,
        [Arg.time tm, Arg.time tm, Arg.int64 id, Arg.int (EnsureDefaults p).Limit]) := by
  have hne : p.Cursor ≠ [] := by
    intro h
    rw [h, DecodeTimeAndInt64Cursor_nil] at hv
    cases hv
  simp [QueryByTimeAndID, heff, EnsureDefaults_Cursor, hne, hv, windowText]

/-- `QueryByTimeAndID` on an empty or rejected cursor. -/
theorem QueryByTimeAndID_plain (base timeCol idCol : List Nat) (ph : Placeholder)
    (ord eff : Order) (p : Page)
    (heff : EffectiveOrder ord (EnsureDefaults p).Dir = some eff)
    (hc : p.Cursor = [] ∨ ∃ e, DecodeTimeAndInt64Cursor p.Cursor = .error e) :
    QueryByTimeAndID base p ord timeCol idCol ph =
      some (base ++ str " ORDER BY " ++ timeCol ++ str " " ++ SQLKeyword eff ++ str ", " ++
        idCol ++ str " " ++ SQLKeyword eff ++ str " LIMIT " ++ ph 1,
        [Arg.int (EnsureDefaults p).Limit]) := by
  rcases hc with hc | ⟨e, he⟩
  · simp [QueryByTimeAndID, heff, EnsureDefaults_Cursor, hc]
  · by_cases hne : p.Cursor = []
    · simp [QueryByTimeAndID, heff, EnsureDefaults_Cursor, hne]
    · simp [QueryByTimeAndID, heff, EnsureDefaults_Cursor, hne, he]

theorem QueryByID_panic (base col : List Nat) (ph : Placeholder) (ord : Order) (p : Page)
    (h : EffectiveOrder ord (EnsureDefaults p).Dir = none) :
    QueryByID base p ord col ph = none := by
  simp [QueryByID, h]

theorem QueryByTime_panic (base col : List Nat) (ph : Placeholder) (ord : Order) (p : Page)
    (h : EffectiveOrder ord (EnsureDefaults p).Dir = none) :
    QueryByTime base p ord col ph = none := by
  simp [QueryByTime, h]

theorem QueryByTimeAndID_panic (base timeCol idCol : List Nat) (ph : Placeholder) (ord : Order)
    (p : Page) (h : EffectiveOrder ord (EnsureDefaults p).Dir = none) :
    QueryByTimeAndID base p ord timeCol idCol ph = none := by
  simp [QueryByTimeAndID, h]

theorem appendWhere_joiner (base cond : List Nat) :
    appendWhere base cond = appendWhere base [] ++ cond := by
  unfold appendWhere
  split_ifs <;> simp

theorem QueryByID_placeholders (base col : List Nat) (ord : Order) (p : Page)
    (hord : ord = Ascending ∨ ord = Descending) :
    PlaceholdersMatchArgs (QueryByID base p ord col) (if 0 < p.Limit then p.Limit else 50)
      [1, 2] := by
  obtain ⟨eff, op, heff, hop, _⟩ := EffectiveOrder_of_valid ord (EnsureDefaults p).Dir hord
  have hL := EnsureDefaults_Limit p
  cases hdec : DecodeInt64Cursor p.Cursor with
  | ok v =>
    refine ⟨[base ++ appendWhere base [] ++ col ++ str " " ++ op ++ str " ",
      str " ORDER BY " ++ col ++ str " " ++ SQLKeyword eff ++ str " LIMIT "],
      [Arg.int64 v, Arg.int (if 0 < p.Limit then p.Limit else 50)], rfl, by simp, rfl,
      by simp, fun ph => ⟨?_, ?_⟩⟩
    · rw [QueryByID_window base col ph ord eff p op v heff hop hdec, appendWhere_joiner, hL]
      simp [renderWith, List.append_assoc]
    · refine ⟨base ++ appendWhere base [] ++ col ++ str " " ++ op ++ str " " ++ ph 1 ++
        str " ORDER BY " ++ col ++ str " " ++ SQLKeyword eff, ?_⟩
      simp [renderWith, List.append_assoc]
  | error e =>
    refine ⟨[base ++ str " ORDER BY " ++ col ++ str " " ++ SQLKeyword eff ++ str " LIMIT "],
      [Arg.int (if 0 < p.Limit then p.Limit else 50)], rfl, by simp, rfl,
      by simp, fun ph => ⟨?_, ?_⟩⟩
    · rw [QueryByID_plain base col ph ord eff p heff (Or.inr ⟨e, hdec⟩), hL]
      simp [renderWith, List.append_assoc]
    · refine ⟨base ++ str " ORDER BY " ++ col ++ str " " ++ SQLKeyword eff, ?_⟩
      simp [renderWith, List.append_assoc]
  | panic => exact absurd hdec (DecodeInt64Cursor_ne_panic _)

theorem QueryByTime_placeholders (base col : List Nat) (ord : Order) (p : Page)
    (hord : ord = Ascending ∨ ord = Descending) :
    PlaceholdersMatchArgs (QueryByTime base p ord col) (if 0 < p.Limit then p.Limit else 50)
      [1, 2] := by
  obtain ⟨eff, op, heff, hop, _⟩ := EffectiveOrder_of_valid ord (EnsureDefaults p).Dir hord
  have hL := EnsureDefaults_Limit p
  cases hdec : DecodeTimeCursor p.Cursor with
  | ok v =>
    refine ⟨[base ++ appendWhere base [] ++ col ++ str " " ++ op ++ str " ",
      str " ORDER BY " ++ col ++ str " " ++ SQLKeyword eff ++ str " LIMIT "],
      [Arg.time v, Arg.int (if 0 < p.Limit then p.Limit else 50)], rfl, by simp, rfl,
      by simp, fun ph => ⟨?_, ?_⟩⟩
    · rw [QueryByTime_window base col ph ord eff p op v heff hop hdec, appendWhere_joiner, hL]
      simp [renderWith, List.append_assoc]
    · refine ⟨base ++ appendWhere base [] ++ col ++ str " " ++ op ++ str " " ++ ph 1 ++
        str " ORDER BY " ++ col ++ str " " ++ SQLKeyword eff, ?_⟩
      simp [renderWith, List.append_assoc]
  | error e =>
    refine ⟨[base ++ str " ORDER BY " ++ col ++ str " " ++ SQLKeyword eff ++ str " LIMIT "],
      [Arg.int (if 0 < p.Limit then p.Limit else 50)], rfl, by simp, rfl,
      by simp, fun ph => ⟨?_, ?_⟩⟩
    · rw [QueryByTime_plain base col ph ord eff p heff (Or.inr ⟨e, hdec⟩), hL]
      simp [renderWith, List.append_assoc]
    · refine ⟨base ++ str " ORDER BY " ++ col ++ str " " ++ SQLKeyword eff, ?_⟩
      simp [renderWith, List.append_assoc]
  | panic => exact absurd hdec (DecodeTimeCursor_ne_panic _)

theorem QueryByTimeAndID_placeholders (base timeCol idCol : List Nat) (ord : Order) (p : Page)
    (hord : ord = Ascending ∨ ord = Descending) :
    PlaceholdersMatchArgs (QueryByTimeAndID base p ord timeCol idCol)
      (if 0 < p.Limit then p.Limit else 50) [1, 4] := by
  obtain ⟨eff, op, heff, hop, _⟩ := EffectiveOrder_of_valid ord (EnsureDefaults p).Dir hord
  have hL := EnsureDefaults_Limit p
  cases hdec : DecodeTimeAndInt64Cursor p.Cursor with
  | ok v =>
    obtain ⟨tm, id⟩ := v
    refine ⟨[base ++ appendWhere base [] ++ str "(" ++ timeCol ++ str " " ++
        (if eff = Descending then str "<" else str ">") ++ str " ",
      str ") OR (" ++ timeCol ++ str " = ",
      str " AND " ++ idCol ++ str " " ++ (if eff = Descending then str "<" else str ">") ++
        str " ",
      str ")" ++ str " ORDER BY " ++ timeCol ++ str " " ++ SQLKeyword eff ++ str ", " ++ idCol ++
        str " " ++ SQLKeyword eff ++ str " LIMIT "],
      [Arg.time tm, Arg.time tm, Arg.int64 id, Arg.int (if 0 < p.Limit then p.Limit else 50)],
      rfl, by simp, rfl, by simp, fun ph => ⟨?_, ?_⟩⟩
    · rw [QueryByTimeAndID_window base timeCol idCol ph ord eff p tm id heff hdec,
        appendWhere_joiner, hL]
      simp [renderWith, windowText, List.append_assoc]
    · refine ⟨base ++ appendWhere base [] ++ windowText timeCol idCol
        (if eff = Descending then str "<" else str ">")
        (if eff = Descending then str "<" else str ">") (ph 1) (ph 2) (ph 3) ++
        str " ORDER BY " ++ timeCol ++ str " " ++ SQLKeyword eff ++ str ", " ++ idCol ++
        str " " ++ SQLKeyword eff, ?_⟩
      simp [renderWith, windowText, List.append_assoc]
  | error e =>
    refine ⟨[base ++ str " ORDER BY " ++ timeCol ++ str " " ++ SQLKeyword eff ++ str ", " ++
        idCol ++ str " " ++ SQLKeyword eff ++ str " LIMIT "],
      [Arg.int (if 0 < p.Limit then p.Limit else 50)], rfl, by simp, rfl,
      by simp, fun ph => ⟨?_, ?_⟩⟩
    · rw [QueryByTimeAndID_plain base timeCol idCol ph ord eff p heff (Or.inr ⟨e, hdec⟩), hL]
      simp [renderWith, List.append_assoc]
    · refine ⟨base ++ str " ORDER BY " ++ timeCol ++ str " " ++ SQLKeyword eff ++ str ", " ++
        idCol ++ str " " ++ SQLKeyword eff, ?_⟩
      simp [renderWith, List.append_assoc]
  | panic => exact absurd hdec (DecodeTimeAndInt64Cursor_ne_panic _)

/-! ## Substring search -/

theorem matchesAt_iff (s sub : List Nat) :
    matchesAt s sub = true ↔ ∃ post, s = sub ++ post := by
  unfold matchesAt
  rw [beq_iff_eq]
  constructor
  · intro h
    refine ⟨s.drop sub.length, ?_⟩
    conv_lhs => rw [← List.take_append_drop sub.length s, h]
  · rintro ⟨post, rfl⟩
    exact List.take_left sub post

theorem Contains_iff (s sub : List Nat) :
    Contains s sub = true ↔ ∃ pre post, s = pre ++ sub ++ post := by
  induction s with
  | nil =>
    rw [Contains, matchesAt_iff]
    constructor
    · rintro ⟨post, h⟩
      exact ⟨[], post, by simpa using h⟩
    · rintro ⟨pre, post, h⟩
      have h1 : pre = [] := by
        cases pre with
        | nil => rfl
        | cons a t => simp at h
      subst h1
      exact ⟨post, by simpa using h⟩
  | cons c s ih =>
    rw [Contains, Bool.or_eq_true, matchesAt_iff, ih]
    constructor
    · rintro (⟨post, h⟩ | ⟨pre, post, h⟩)
      · exact ⟨[], post, by simpa using h⟩
      · exact ⟨c :: pre, post, by simp [h]⟩
    · rintro ⟨pre, post, h⟩
      cases pre with
      | nil => exact Or.inl ⟨post, by simpa using h⟩
      | cons a t =>
        simp only [List.cons_append, List.cons.injEq] at h
        exact Or.inr ⟨t, post, h.2⟩

theorem HasSuffix_iff (s suffix : List Nat) :
    HasSuffix s suffix = true ↔ ∃ pre, s = pre ++ suffix := by
  unfold HasSuffix
  rw [Bool.and_eq_true, decide_eq_true_eq, beq_iff_eq]
  constructor
  · rintro ⟨_, h⟩
    refine ⟨s.take (s.length - suffix.length), ?_⟩
    conv_lhs => rw [← List.take_append_drop (s.length - suffix.length) s, h]
  · rintro ⟨pre, rfl⟩
    refine ⟨by simp, ?_⟩
    have : (pre ++ suffix).length - suffix.length = pre.length := by simp
    rw [this]
    exact List.drop_left pre suffix

theorem hasWhere_iff (lowerBase : List Nat) :
    hasWhere lowerBase = true ↔
      (∃ pre post, lowerBase = pre ++ str " where " ++ post) ∨
        (∃ pre, lowerBase = pre ++ str " where") := by
  unfold hasWhere
  rw [← Contains_iff, ← HasSuffix_iff]
  split_ifs with h
  · simp only [Bool.or_eq_true] at h
    simp [h]
  · simp only [Bool.or_eq_true] at h
    simp [h]

/-! ## Order of big-endian payloads -/

theorem foldl_lt_iff (x : List Nat) :
    ∀ (y : List Nat) (p q : Nat), x.length = y.length → (∀ c ∈ x, c < 256) →
      (∀ c ∈ y, c < 256) →
      (x.foldl (fun acc c => acc * 256 + c) p < y.foldl (fun acc c => acc * 256 + c) q ↔
        p < q ∨ (p = q ∧ strLess x y = true)) := by
  induction x with
  | nil =>
    intro y p q hl _ _
    cases y with
    | nil => simp [strLess]
    | cons b bs => simp at hl
  | cons a as ih =>
    intro y p q hl hx hy
    cases y with
    | nil => simp at hl
    | cons b bs =>
      have ha : a < 256 := hx a (by simp)
      have hb : b < 256 := hy b (by simp)
      have hl2 : as.length = bs.length := by simpa using hl
      have h := ih bs (p * 256 + a) (q * 256 + b) hl2
        (fun c hc => hx c (by simp [hc])) (fun c hc => hy c (by simp [hc]))
      simp only [List.foldl_cons, strLess, Bool.or_eq_true, Bool.and_eq_true, decide_eq_true_eq,
        beq_iff_eq]
      rw [h]
      constructor
      · rintro (h1 | ⟨h1, h2⟩)
        · by_cases hpq : p < q
          · exact Or.inl hpq
          · exact Or.inr ⟨by omega, Or.inl (by omega)⟩
        · exact Or.inr ⟨by omega, Or.inr ⟨by omega, h2⟩⟩
      · rintro (h1 | ⟨h1, h2 | ⟨h2, h3⟩⟩)
        · exact Or.inl (by omega)
        · exact Or.inl (by omega)
        · exact Or.inr ⟨by omega, h3⟩

theorem strLess_PutUint64 (u w : Nat) (hu : u < 18446744073709551616)
    (hw : w < 18446744073709551616) :
    strLess (PutUint64 u) (PutUint64 w) = true ↔ u < w := by
  have h := foldl_lt_iff (PutUint64 u) (PutUint64 w) 0 0 rfl (PutUint64_lt u) (PutUint64_lt w)
  have hu2 := bigEndianValue_PutUint64 u hu
  have hw2 := bigEndianValue_PutUint64 w hw
  unfold bigEndianValue at hu2 hw2
  rw [hu2, hw2] at h
  rw [h]
  simp

/-! ## Composite composition and fail-open -/

/-- C21, as stated, fails for a base text without a `WHERE` clause in which
` where ` occurs inside a string literal: for
`SELECT 'a where b' AS note FROM posts` and a valid cursor `QueryByTimeAndID`
joins the window with ` AND `, not with ` WHERE `.  Outside the quoted literal
the base has no `where`. -/
theorem where_inside_literal_joined_with_and :
    exampleBaseLiteral =
      str "SELECT " ++ [39] ++ str "a where b" ++ [39] ++ str " AS note FROM posts" ∧
    Contains (ToLower (str "SELECT ")) (str "where") = false ∧
    Contains (ToLower (str " AS note FROM posts")) (str "where") = false ∧
    DecodeTimeAndInt64Cursor (EncodeTimeAndInt64Cursor exampleTime 123) =
      .ok (exampleTime, 123) ∧
    QueryByTimeAndID exampleBaseLiteral ⟨EncodeTimeAndInt64Cursor exampleTime 123, 10, DirPrev⟩
        Descending (str "created_at") (str "id") PlaceholderDollar =
      some (exampleBaseLiteral ++
        str (" AND (created_at > $1) OR (created_at = $2 AND id > $3)"
          ++ " ORDER BY created_at ASC, id ASC LIMIT $4"),
        [Arg.time exampleTime, Arg.time exampleTime, Arg.int64 123, Arg.int 10]) ∧
    QueryByTimeAndID exampleBaseLiteral ⟨EncodeTimeAndInt64Cursor exampleTime 123, 10, DirPrev⟩
        Descending (str "created_at") (str "id") PlaceholderDollar ≠
      some (exampleBaseLiteral ++
        str (" WHERE (created_at > $1) OR (created_at = $2 AND id > $3)"
          ++ " ORDER BY created_at ASC, id ASC LIMIT $4"),
        [Arg.time exampleTime, Arg.time exampleTime, Arg.int64 123, Arg.int 10]) := by
  refine ⟨rfl, by decide, by decide, by decide, ?_, ?_⟩
  · set_option maxRecDepth 8000 in decide
  · set_option maxRecDepth 8000 in decide

/-- C21 as amended: for every base text that contains no ` where ` in any letter
case and does not end with ` where`, valid order, page whose cursor decodes to
`(t, id)` and placeholder function, `QueryByTimeAndID` returns
`base WHERE (T op ph(1)) OR (T = ph(2) AND I op ph(3)) ORDER BY T kw, I kw
LIMIT ph(4)` with the bound values `[t, t, id, limit]`, where `op` is `>` and
`kw` is `ASC` for the effective order Ascending, `<` and `DESC` for
Descending; base order Descending with `DirPrev` and the boundary
(2025-11-12T00:00:00Z, 123) gives the window
`(created_at > $1) OR (created_at = $2 AND id > $3)`. -/
theorem composite_composition (base timeCol idCol : List Nat) (ph : Placeholder) (ord : Order)
    (p : Page) (t : Time) (id : Int) (hord : ord = Ascending ∨ ord = Descending)
    (hw : ¬ ((∃ pre post, ToLower base = pre ++ str " where " ++ post) ∨
      (∃ pre, ToLower base = pre ++ str " where")))
    (hdec : DecodeTimeAndInt64Cursor p.Cursor = .ok (t, id)) :
    (∃ (eff : Order) (op kw : List Nat),
      EffectiveOrder ord (EnsureDefaults p).Dir = some eff ∧
      ((eff = Ascending ∧ op = str ">" ∧ kw = str "ASC") ∨
        (eff = Descending ∧ op = str "<" ∧ kw = str "DESC")) ∧
      QueryByTimeAndID base p ord timeCol idCol ph =
        some (base ++ str " WHERE (" ++ timeCol ++ str " " ++ op ++ str " " ++ ph 1 ++
          str ") OR (" ++ timeCol ++ str " = " ++ ph 2 ++ str " AND " ++ idCol ++ str " " ++
          op ++ str " " ++ ph 3 ++ str ")" ++ str " ORDER BY " ++ timeCol ++ str " " ++ kw ++
          str ", " ++ idCol ++ str " " ++ kw ++ str " LIMIT " ++ ph 4,
          [Arg.time t, Arg.time t, Arg.int64 id, Arg.int (EnsureDefaults p).Limit])) ∧
    QueryByTimeAndID (str "SELECT * FROM posts")
        ⟨EncodeTimeAndInt64Cursor exampleTime 123, 10, DirPrev⟩ Descending (str "created_at")
        (str "id") PlaceholderDollar =
      some (str ("SELECT * FROM posts WHERE (created_at > $1) OR (created_at = $2 AND id > $3)"
        ++ " ORDER BY created_at ASC, id ASC LIMIT $4"),
        [Arg.time exampleTime, Arg.time exampleTime, Arg.int64 123, Arg.int 10]) := by
  refine ⟨?_, by decide⟩
  have hw2 : hasWhere (ToLower base) = false := by
    rw [Bool.eq_false_iff]
    exact fun hc => hw ((hasWhere_iff _).1 hc)
  obtain ⟨eff, heff, _, hcase⟩ := EffectiveOrder_cases ord (EnsureDefaults p).Dir hord
  have hda : Ascending ≠ Descending := by decide
  have e1 : str " WHERE (" = str " WHERE " ++ str "(" := by decide
  have hq := QueryByTimeAndID_window base timeCol idCol ph ord eff p t id heff hdec
  rcases hcase with ⟨rfl, _, hkw⟩ | ⟨rfl, _, hkw⟩
  · refine ⟨Ascending, str ">", str "ASC", heff, Or.inl ⟨rfl, rfl, rfl⟩, ?_⟩
    rw [hq, hkw]
    simp [appendWhere, hw2, windowText, hda, e1, List.append_assoc]
  · refine ⟨Descending, str "<", str "DESC", heff, Or.inr ⟨rfl, rfl, rfl⟩, ?_⟩
    rw [hq, hkw]
    simp [appendWhere, hw2, windowText, e1, List.append_assoc]

/-- C21 as amended, at the query of the test `DirPrev + base DESC`. -/
theorem composite_composition_witness :
    (Descending = Ascending ∨ Descending = Descending) ∧
    ¬ ((∃ pre post, ToLower (str "SELECT * FROM posts") = pre ++ str " where " ++ post) ∨
      (∃ pre, ToLower (str "SELECT * FROM posts") = pre ++ str " where")) ∧
    DecodeTimeAndInt64Cursor
      (Page.mk (EncodeTimeAndInt64Cursor exampleTime 123) 10 DirPrev).Cursor =
        .ok (exampleTime, 123) ∧
    ((∃ (eff : Order) (op kw : List Nat),
      EffectiveOrder Descending
        (EnsureDefaults (Page.mk (EncodeTimeAndInt64Cursor exampleTime 123) 10 DirPrev)).Dir =
          some eff ∧
      ((eff = Ascending ∧ op = str ">" ∧ kw = str "ASC") ∨
        (eff = Descending ∧ op = str "<" ∧ kw = str "DESC")) ∧
      QueryByTimeAndID (str "SELECT * FROM posts")
          (Page.mk (EncodeTimeAndInt64Cursor exampleTime 123) 10 DirPrev) Descending
          (str "created_at") (str "id") PlaceholderDollar =
        some (str "SELECT * FROM posts" ++ str " WHERE (" ++ str "created_at" ++ str " " ++ op ++
          str " " ++ PlaceholderDollar 1 ++
          str ") OR (" ++ str "created_at" ++ str " = " ++ PlaceholderDollar 2 ++ str " AND " ++
          str "id" ++ str " " ++
          op ++ str " " ++ PlaceholderDollar 3 ++ str ")" ++ str " ORDER BY " ++
          str "created_at" ++ str " " ++ kw ++
          str ", " ++ str "id" ++ str " " ++ kw ++ str " LIMIT " ++ PlaceholderDollar 4,
          [Arg.time exampleTime, Arg.time exampleTime, Arg.int64 123,
            Arg.int (EnsureDefaults
              (Page.mk (EncodeTimeAndInt64Cursor exampleTime 123) 10 DirPrev)).Limit])) ∧
    QueryByTimeAndID (str "SELECT * FROM posts")
        ⟨EncodeTimeAndInt64Cursor exampleTime 123, 10, DirPrev⟩ Descending (str "created_at")
        (str "id") PlaceholderDollar =
      some (str ("SELECT * FROM posts WHERE (created_at > $1) OR (created_at = $2 AND id > $3)"
        ++ " ORDER BY created_at ASC, id ASC LIMIT $4"),
        [Arg.time exampleTime, Arg.time exampleTime, Arg.int64 123, Arg.int 10])) :=
  ⟨by decide, fun h => absurd ((hasWhere_iff _).2 h) (by decide), by decide,
    composite_composition (str "SELECT * FROM posts") (str "created_at") (str "id")
      PlaceholderDollar Descending (Page.mk (EncodeTimeAndInt64Cursor exampleTime 123) 10 DirPrev)
      exampleTime 123 (by decide) (fun h => absurd ((hasWhere_iff _).2 h) (by decide))
      (by decide)⟩

/-- C22: for every cursor string that the decoder of the shape rejects, and all
other arguments, each composer returns what it returns for the same page with
an empty cursor; for a valid order that is the base text followed by `ORDER BY`
with the keyword of the effective order and `LIMIT ph(1)`, with the defaulted
limit as the only bound value; an undecodable cursor with `DirPrev`, base order
Descending and limit 0 gives `ORDER BY ... ASC` and the bound value 50. -/
theorem fail_open (base col timeCol idCol : List Nat) (ph : Placeholder) (ord : Order)
    (c : List Nat) (limit : Int) (dir : Dir) :
    (∀ e, DecodeInt64Cursor c = .error e →
      QueryByID base ⟨c, limit, dir⟩ ord col ph = QueryByID base ⟨[], limit, dir⟩ ord col ph) ∧
    (∀ e, DecodeTimeCursor c = .error e →
      QueryByTime base ⟨c, limit, dir⟩ ord col ph =
        QueryByTime base ⟨[], limit, dir⟩ ord col ph) ∧
    (∀ e, DecodeTimeAndInt64Cursor c = .error e →
      QueryByTimeAndID base ⟨c, limit, dir⟩ ord timeCol idCol ph =
        QueryByTimeAndID base ⟨[], limit, dir⟩ ord timeCol idCol ph) ∧
    (ord = Ascending ∨ ord = Descending →
      ∃ eff, EffectiveOrder ord (EnsureDefaults ⟨[], limit, dir⟩).Dir = some eff ∧
        QueryByID base ⟨[], limit, dir⟩ ord col ph =
          some (base ++ str " ORDER BY " ++ col ++ str " " ++ SQLKeyword eff ++ str " LIMIT " ++
            ph 1, [Arg.int (if 0 < limit then limit else 50)]) ∧
        QueryByTime base ⟨[], limit, dir⟩ ord col ph =
          some (base ++ str " ORDER BY " ++ col ++ str " " ++ SQLKeyword eff ++ str " LIMIT " ++
            ph 1, [Arg.int (if 0 < limit then limit else 50)]) ∧
        QueryByTimeAndID base ⟨[], limit, dir⟩ ord timeCol idCol ph =
          some (base ++ str " ORDER BY " ++ timeCol ++ str " " ++ SQLKeyword eff ++ str ", " ++
            idCol ++ str " " ++ SQLKeyword eff ++ str " LIMIT " ++ ph 1,
            [Arg.int (if 0 < limit then limit else 50)])) ∧
    QueryByTimeAndID (str "SELECT * FROM posts") ⟨str "@@@invalid@@@", 0, DirPrev⟩ Descending
        (str "created_at") (str "id") PlaceholderDollar =
      some (str "SELECT * FROM posts ORDER BY created_at ASC, id ASC LIMIT $1",
        [Arg.int 50]) := by
  have hdir := EnsureDefaults_Dir_mk c limit dir
  have hl1 := EnsureDefaults_Limit ⟨c, limit, dir⟩
  have hl2 := EnsureDefaults_Limit ⟨[], limit, dir⟩
  simp only at hl1 hl2
  refine ⟨?_, ?_, ?_, ?_, by decide⟩
  · intro e he
    cases h : EffectiveOrder ord (EnsureDefaults ⟨[], limit, dir⟩).Dir with
    | none =>
      rw [QueryByID_panic _ _ _ _ _ h, QueryByID_panic _ _ _ _ _ (hdir ▸ h)]
    | some eff =>
      rw [QueryByID_plain base col ph ord eff _ h (Or.inl rfl),
        QueryByID_plain base col ph ord eff _ (hdir ▸ h) (Or.inr ⟨e, he⟩), hl1, hl2]
  · intro e he
    cases h : EffectiveOrder ord (EnsureDefaults ⟨[], limit, dir⟩).Dir with
    | none =>
      rw [QueryByTime_panic _ _ _ _ _ h, QueryByTime_panic _ _ _ _ _ (hdir ▸ h)]
    | some eff =>
      rw [QueryByTime_plain base col ph ord eff _ h (Or.inl rfl),
        QueryByTime_plain base col ph ord eff _ (hdir ▸ h) (Or.inr ⟨e, he⟩), hl1, hl2]
  · intro e he
    cases h : EffectiveOrder ord (EnsureDefaults ⟨[], limit, dir⟩).Dir with
    | none =>
      rw [QueryByTimeAndID_panic _ _ _ _ _ _ h, QueryByTimeAndID_panic _ _ _ _ _ _ (hdir ▸ h)]
    | some eff =>
      rw [QueryByTimeAndID_plain base timeCol idCol ph ord eff _ h (Or.inl rfl),
        QueryByTimeAndID_plain base timeCol idCol ph ord eff _ (hdir ▸ h) (Or.inr ⟨e, he⟩),
        hl1, hl2]
  · intro hord
    obtain ⟨eff, heff, _, _⟩ :=
      EffectiveOrder_cases ord (EnsureDefaults ⟨[], limit, dir⟩).Dir hord
    refine ⟨eff, heff, ?_, ?_, ?_⟩
    · rw [QueryByID_plain base col ph ord eff _ heff (Or.inl rfl), hl2]
    · rw [QueryByTime_plain base col ph ord eff _ heff (Or.inl rfl), hl2]
    · rw [QueryByTimeAndID_plain base timeCol idCol ph ord eff _ heff (Or.inl rfl), hl2]

/-! ## Detection of `WHERE` -/

/-- C23: for every base text and condition, the text appended for the window
is ` AND ` and the condition when the lowered base contains ` where ` or ends
with ` where`, and ` WHERE ` and the condition otherwise; a base without the
letters `where` gets ` WHERE `, and the base
`SELECT * FROM posts WHERE tenant_id = 1` gets ` AND `. -/
theorem appendWhere_spec (base cond : List Nat) :
    (((∃ pre post, ToLower base = pre ++ str " where " ++ post) ∨
        (∃ pre, ToLower base = pre ++ str " where")) →
      appendWhere base cond = str " AND " ++ cond) ∧
    (¬ ((∃ pre post, ToLower base = pre ++ str " where " ++ post) ∨
        (∃ pre, ToLower base = pre ++ str " where")) →
      appendWhere base cond = str " WHERE " ++ cond) ∧
    ((¬ ∃ pre post, ToLower base = pre ++ str "where" ++ post) →
      appendWhere base cond = str " WHERE " ++ cond) ∧
    appendWhere (str "SELECT * FROM posts WHERE tenant_id = 1") cond = str " AND " ++ cond := by
  have key := hasWhere_iff (ToLower base)
  have e1 : str " where " = str " " ++ str "where" ++ str " " := by decide
  have e2 : str " where" = str " " ++ str "where" := by decide
  refine ⟨?_, ?_, ?_, ?_⟩
  · intro h
    simp [appendWhere, key.2 h]
  · intro h
    have : hasWhere (ToLower base) = false := by
      rw [Bool.eq_false_iff]
      exact fun hc => h (key.1 hc)
    simp [appendWhere, this]
  · intro h
    have : hasWhere (ToLower base) = false := by
      rw [Bool.eq_false_iff]
      intro hc
      rcases key.1 hc with ⟨pre, post, hb⟩ | ⟨pre, hb⟩
      · exact h ⟨pre ++ str " ", str " " ++ post, by rw [hb, e1]; simp [List.append_assoc]⟩
      · exact h ⟨pre ++ str " ", [], by rw [hb, e2]; simp [List.append_assoc]⟩
    simp [appendWhere, this]
  · have : hasWhere (ToLower (str "SELECT * FROM posts WHERE tenant_id = 1")) = true := by
      decide
    simp [appendWhere, this]

/-- C24, as stated, fails for a `WHERE` that follows a line break or a tab: the
composer does not detect it and joins the window with a second ` WHERE `. -/
theorem where_after_line_break_not_detected :
    ToLower (str "\nWHERE ") = str "\nwhere " ∧
    appendWhere (str "SELECT * FROM posts\nWHERE tenant_id = 1") (str "id < ?") =
      str " WHERE id < ?" ∧
    appendWhere (str "SELECT * FROM posts\tWHERE tenant_id = 1") (str "id < ?") =
      str " WHERE id < ?" ∧
    QueryByID (str "SELECT * FROM posts\nWHERE tenant_id = 1")
        ⟨EncodeInt64Cursor 100, 5, DirNext⟩ Descending (str "id") PlaceholderQuestion =
      some (str "SELECT * FROM posts\nWHERE tenant_id = 1 WHERE id < ? ORDER BY id DESC LIMIT ?",
        [Arg.int64 100, Arg.int 5]) := by
  decide

/-- C24 as amended: for every base text in which the word `WHERE`, in any
letter case, stands after a space and before a space or the end of the text,
the window is joined with ` AND `. -/
theorem where_between_spaces_detected (base pre w post cond : List Nat)
    (hw : ToLower w = str "where")
    (hb : base = pre ++ str " " ++ w ++ str " " ++ post ∨ base = pre ++ str " " ++ w) :
    appendWhere base cond = str " AND " ++ cond := by
  have hsp : ToLower (str " ") = str " " := by decide
  have e1 : str " where " = str " " ++ str "where" ++ str " " := by decide
  have e2 : str " where" = str " " ++ str "where" := by decide
  have hmap : ∀ a b : List Nat, ToLower (a ++ b) = ToLower a ++ ToLower b := by
    intro a b
    simp [ToLower]
  have : hasWhere (ToLower base) = true := by
    rw [hasWhere_iff]
    rcases hb with rfl | rfl
    · left
      refine ⟨ToLower pre, ToLower post, ?_⟩
      rw [hmap, hmap, hmap, hmap, hw, hsp, e1]
      simp [List.append_assoc]
    · right
      refine ⟨ToLower pre, ?_⟩
      rw [hmap, hmap, hw, hsp, e2]
      simp [List.append_assoc]
  simp [appendWhere, this]

/-- C24 as amended, at a base with the word `Where`. -/
theorem where_between_spaces_detected_witness :
    ToLower (str "Where") = str "where" ∧
    (str "SELECT * FROM posts Where tenant_id = 1" =
        str "SELECT * FROM posts" ++ str " " ++ str "Where" ++ str " " ++ str "tenant_id = 1" ∨
      str "SELECT * FROM posts Where tenant_id = 1" =
        str "SELECT * FROM posts" ++ str " " ++ str "Where") ∧
    appendWhere (str "SELECT * FROM posts Where tenant_id = 1") (str "id < ?") =
      str " AND " ++ str "id < ?" :=
  ⟨by decide, by decide,
    where_between_spaces_detected (str "SELECT * FROM posts Where tenant_id = 1")
      (str "SELECT * FROM posts") (str "Where") (str "tenant_id = 1") (str "id < ?")
      (by decide) (by decide)⟩

/-! ## Placeholders and bound values -/

/-- C25: for every input with a valid order, each composer returns a text and
bound values such that the last bound value is the effective limit (`p.Limit`
if positive, otherwise 50), the values before it are key values, the text ends
with ` LIMIT ` and the placeholder of index `len(args)`, and the placeholders
of the indexes 1, 2, ..., `len(args)` appear once each in that order between
literal segments; the number of bound values is 1 or 2 for the single-column
composers and 1 or 4 for the composite one. -/
theorem placeholders_match_bound_values (base col timeCol idCol : List Nat) (ord : Order)
    (p : Page) (hord : ord = Ascending ∨ ord = Descending) :
    PlaceholdersMatchArgs (QueryByID base p ord col)
      (if 0 < p.Limit then p.Limit else 50) [1, 2] ∧
    PlaceholdersMatchArgs (QueryByTime base p ord col)
      (if 0 < p.Limit then p.Limit else 50) [1, 2] ∧
    PlaceholdersMatchArgs (QueryByTimeAndID base p ord timeCol idCol)
      (if 0 < p.Limit then p.Limit else 50) [1, 4] :=
  ⟨QueryByID_placeholders base col ord p hord, QueryByTime_placeholders base col ord p hord,
    QueryByTimeAndID_placeholders base timeCol idCol ord p hord⟩

/-- C25 at the query of the test `DESC DirNext with cursor`. -/
theorem placeholders_match_bound_values_witness :
    (Descending = Ascending ∨ Descending = Descending) ∧
    PlaceholdersMatchArgs (QueryByID exampleBase examplePage Descending (str "id"))
      (if 0 < examplePage.Limit then examplePage.Limit else 50) [1, 2] ∧
    PlaceholdersMatchArgs (QueryByTime exampleBase examplePage Descending (str "id"))
      (if 0 < examplePage.Limit then examplePage.Limit else 50) [1, 2] ∧
    PlaceholdersMatchArgs
      (QueryByTimeAndID exampleBase examplePage Descending (str "created_at") (str "id"))
      (if 0 < examplePage.Limit then examplePage.Limit else 50) [1, 4] :=
  ⟨by decide, placeholders_match_bound_values exampleBase (str "id") (str "created_at")
    (str "id") Descending examplePage (by decide)⟩

/-! ## Result normalisation -/

/-- C26: for every page and every list of rows, `NormalizePageResult` returns
the reversed rows when the direction is `DirPrev` and the rows unchanged for
every other direction value; `DirPrev` over `[5, 4, 3]` gives `[3, 4, 5]`; the
result has the length and the elements of the input. -/
theorem NormalizePageResult_spec {T : Type} (p : Page) (rows : List T) :
    (p.Dir = DirPrev → NormalizePageResult p rows = rows.reverse) ∧
    (p.Dir ≠ DirPrev → NormalizePageResult p rows = rows) ∧
    (NormalizePageResult p rows).length = rows.length ∧
    (NormalizePageResult p rows).Perm rows ∧
    NormalizePageResult ⟨[], 10, DirPrev⟩ [5, 4, 3] = [3, 4, 5] ∧
    NormalizePageResult ⟨[], 10, 0⟩ [5, 4, 3] = [5, 4, 3] := by
  unfold NormalizePageResult
  refine ⟨fun h => by simp [h], fun h => by simp [h], ?_, ?_, by decide, by decide⟩
  · split_ifs <;> simp
  · split_ifs
    · exact List.reverse_perm rows
    · exact List.Perm.refl rows

/-- C27: for every valid base order `ord`, every direction `dir` and every list
of rows whose keys are sorted according to `EffectiveOrder ord dir`,
`NormalizePageResult` for a page with that direction returns the same rows,
none lost and none added, sorted according to `ord`. -/
theorem NormalizePageResult_sorted {T κ : Type} [LinearOrder κ] (key : T → κ) (ord eff : Order)
    (dir : Dir) (cursor : List Nat) (limit : Int) (rows : List T)
    (hord : ord = Ascending ∨ ord = Descending)
    (heff : EffectiveOrder ord dir = some eff) (hs : SortedBy key eff rows) :
    SortedBy key ord (NormalizePageResult ⟨cursor, limit, dir⟩ rows) ∧
    (NormalizePageResult ⟨cursor, limit, dir⟩ rows).Perm rows ∧
    (NormalizePageResult ⟨cursor, limit, dir⟩ rows).length = rows.length := by
  have hda : Ascending ≠ Descending := by decide
  unfold EffectiveOrder at heff
  unfold NormalizePageResult
  by_cases hd : dir = DirPrev
  · simp only [hd, if_true] at heff ⊢
    refine ⟨?_, List.reverse_perm rows, List.length_reverse rows⟩
    rcases hord with rfl | rfl
    · have : eff = Descending := by
        have h2 : Reverse Ascending = some Descending := by decide
        rw [h2] at heff
        exact (Option.some.inj heff).symm
      subst this
      simp only [SortedBy, if_true, hda, if_false] at hs ⊢
      rw [List.pairwise_reverse]
      exact hs
    · have : eff = Ascending := by
        have h2 : Reverse Descending = some Ascending := by decide
        rw [h2] at heff
        exact (Option.some.inj heff).symm
      subst this
      simp only [SortedBy, if_true, hda, if_false] at hs ⊢
      rw [List.pairwise_reverse]
      exact hs
  · simp only [hd, if_false] at heff ⊢
    have : eff = ord := (Option.some.inj heff).symm
    subst this
    exact ⟨hs, List.Perm.refl rows, trivial⟩

/-- C27 at base order Descending, `DirPrev` and the rows `[3, 4, 5]`, which come
out as `[5, 4, 3]`. -/
theorem NormalizePageResult_sorted_witness :
    (Descending = Ascending ∨ Descending = Descending) ∧
    EffectiveOrder Descending DirPrev = some Ascending ∧
    SortedBy (fun n : Nat => n) Ascending [3, 4, 5] ∧
    (SortedBy (fun n : Nat => n) Descending
      (NormalizePageResult ⟨[], 10, DirPrev⟩ [3, 4, 5]) ∧
    (NormalizePageResult ⟨[], 10, DirPrev⟩ [3, 4, 5]).Perm [3, 4, 5] ∧
    (NormalizePageResult ⟨[], 10, DirPrev⟩ [3, 4, 5]).length = [3, 4, 5].length) ∧
    NormalizePageResult ⟨[], 10, DirPrev⟩ [3, 4, 5] = [5, 4, 3] :=
  ⟨by decide, by decide, by simp [SortedBy, Ascending, Descending],
    NormalizePageResult_sorted (fun n : Nat => n) Descending Ascending DirPrev [] 10 [3, 4, 5]
      (by decide) (by decide) (by simp [SortedBy, Ascending, Descending]), by decide⟩

/-! ## The GORM scope for the composite key -/

/-- C28, as stated, fails: for base order Descending, `DirNext` and a valid
composite cursor the statement built from `PageByTimeAndID` has the window
`(created_at < $1) OR (created_at = $2 AND id < $3)` and `LIMIT $4`, with four
bound values, the time being bound twice. -/
theorem gorm_composite_binds_four_values :
    (PageByTimeAndID exampleDB ⟨EncodeTimeAndInt64Cursor exampleTime 123, 10, DirNext⟩
        Descending (str "created_at") (str "id")).map toSQL =
      some (str ("SELECT * FROM posts WHERE (created_at < $1) OR (created_at = $2 AND id < $3)"
        ++ " ORDER BY created_at DESC, id DESC LIMIT $4"),
        [Arg.time exampleTime, Arg.time exampleTime, Arg.int64 123, Arg.int 10]) ∧
    str "(created_at < $1) OR (created_at = $2 AND id < $3)" ≠
      str "(created_at < $1) OR (created_at = $1 AND id < $2)" ∧
    [Arg.time exampleTime, Arg.time exampleTime, Arg.int64 123, Arg.int 10].length ≠ 3 := by
  decide

/-- C28 as amended: for base order Descending, `DirNext`, a cursor that decodes
to `(t, id)` and a statement without earlier conditions or orderings, the
statement built from `PageByTimeAndID` is the head followed by
`WHERE (created_at < $1) OR (created_at = $2 AND id < $3)`,
`ORDER BY created_at DESC, id DESC` and `LIMIT $4`, with the four bound values
`t`, `t`, `id` and the defaulted limit. -/
theorem gorm_composite_query (db : GormDB) (p : Page) (t : Time) (id : Int)
    (hdb : db.wheres = [] ∧ db.orders = []) (hdir : p.Dir = DirNext)
    (hdec : DecodeTimeAndInt64Cursor p.Cursor = .ok (t, id)) :
    (PageByTimeAndID db p Descending (str "created_at") (str "id")).map toSQL =
      some (db.head ++ str " WHERE (created_at < $1) OR (created_at = $2 AND id < $3)" ++
        str " ORDER BY created_at DESC, id DESC" ++ str " LIMIT $4",
        [Arg.time t, Arg.time t, Arg.int64 id,
          Arg.int (if 0 < p.Limit then p.Limit else 50)]) := by
  obtain ⟨h, w, o, l, wr⟩ := db
  obtain ⟨hw, ho⟩ := hdb
  simp only at hw ho
  subst hw ho
  have hne : p.Cursor ≠ [] := by
    intro hc
    rw [hc, DecodeTimeAndInt64Cursor_nil] at hdec
    cases hdec
  have hD : (EnsureDefaults p).Dir = DirNext := by
    obtain ⟨c, lim, d⟩ := p
    simp only at hdir
    subst hdir
    unfold EnsureDefaults
    by_cases hl : lim ≤ 0 <;> simp [hl]
  have hL := EnsureDefaults_Limit p
  have hpos : 0 ≤ (if 0 < p.Limit then p.Limit else 50) := by
    split_ifs <;> omega
  have heff : EffectiveOrder Descending DirNext = some Descending := by decide
  have hwhere : StableWhereTimeAndID (str "created_at") (str "id") Descending =
      str "(created_at < ?) OR (created_at = ? AND id < ?)" := by decide
  have horder : OrderClause [str "created_at", str "id"] Descending =
      str "created_at DESC, id DESC" := by decide
  have hbuild : exprBuild (str "(created_at < ?) OR (created_at = ? AND id < ?)")
      [Arg.time t, Arg.time t, Arg.int64 id] [] =
      (str "(created_at < $1) OR (created_at = $2 AND id < $3)",
        [Arg.time t, Arg.time t, Arg.int64 id]) := by
    simp [exprBuild, str]
    decide
  have h4 : PlaceholderDollar 4 = str "$4" := by decide
  have e1 : str " WHERE (created_at < $1) OR (created_at = $2 AND id < $3)" =
      str " WHERE " ++ str "(created_at < $1) OR (created_at = $2 AND id < $3)" := by decide
  have e2 : str " ORDER BY created_at DESC, id DESC" =
      str " ORDER BY " ++ str "created_at DESC, id DESC" := by decide
  have e3 : str " LIMIT $4" = str " LIMIT " ++ str "$4" := by decide
  simp only [PageByTimeAndID, hD, heff, EnsureDefaults_Cursor, hne, ne_eq, not_false_eq_true,
    if_true, hdec, hwhere, horder, hL, GormDB.Where, GormDB.Order, GormDB.Limit, Option.map,
    toSQL, List.nil_append, buildExprs, hbuild]
  simp [hpos, h4, e1, e2, e3, joinOrders, List.append_assoc]

/-- C28 as amended, at the boundary (2025-11-12T00:00:00Z, 123) with limit 0. -/
theorem gorm_composite_query_witness :
    (exampleDB.wheres = [] ∧ exampleDB.orders = []) ∧
    (Page.mk (EncodeTimeAndInt64Cursor exampleTime 123) 0 DirNext).Dir = DirNext ∧
    DecodeTimeAndInt64Cursor
      (Page.mk (EncodeTimeAndInt64Cursor exampleTime 123) 0 DirNext).Cursor =
        .ok (exampleTime, 123) ∧
    (PageByTimeAndID exampleDB (Page.mk (EncodeTimeAndInt64Cursor exampleTime 123) 0 DirNext)
        Descending (str "created_at") (str "id")).map toSQL =
      some (exampleDB.head ++ str " WHERE (created_at < $1) OR (created_at = $2 AND id < $3)" ++
        str " ORDER BY created_at DESC, id DESC" ++ str " LIMIT $4",
        [Arg.time exampleTime, Arg.time exampleTime, Arg.int64 123,
          Arg.int (if 0 < (Page.mk (EncodeTimeAndInt64Cursor exampleTime 123) 0 DirNext).Limit
            then (Page.mk (EncodeTimeAndInt64Cursor exampleTime 123) 0 DirNext).Limit
            else 50)]) :=
  ⟨by decide, by decide, by decide,
    gorm_composite_query exampleDB (Page.mk (EncodeTimeAndInt64Cursor exampleTime 123) 0 DirNext)
      exampleTime 123 (by decide) (by decide) (by decide)⟩

/-! ## Order of integer payloads -/

/-- C29: for all signed 64-bit integers `a` and `b`, the 8-byte payload of the
cursor of `a` is byte-wise less than the payload of the cursor of `b` exactly
when the two's-complement bit pattern of `a`, read as an unsigned number, is
less than that of `b`; for `0 ≤ a < b` the payloads are ascending. -/
theorem int64_payload_order (a b : Int) (ha : IsInt64 a) (hb : IsInt64 b) :
    ∃ pa pb : List Nat,
      decodeString (EncodeInt64Cursor a) = .ok pa ∧
      decodeString (EncodeInt64Cursor b) = .ok pb ∧
      pa.length = 8 ∧ pb.length = 8 ∧
      (strLess pa pb = true ↔ twosComplement a < twosComplement b) ∧
      (0 ≤ a → a < b → strLess pa pb = true) := by
  refine ⟨PutUint64 (toUint64 a), PutUint64 (toUint64 b),
    decodeString_encodeToString _ (PutUint64_lt _),
    decodeString_encodeToString _ (PutUint64_lt _), rfl, rfl, ?_, ?_⟩
  · rw [strLess_PutUint64 _ _ (toUint64_lt a) (toUint64_lt b),
      toUint64_eq_twosComplement a ha, toUint64_eq_twosComplement b hb]
  · intro h0 hab
    rw [strLess_PutUint64 _ _ (toUint64_lt a) (toUint64_lt b)]
    unfold IsInt64 at ha hb
    unfold toUint64
    omega

/-- C29 at `a = 0`, `b = 13`. -/
theorem int64_payload_order_witness :
    IsInt64 0 ∧ IsInt64 13 ∧
    ∃ pa pb : List Nat,
      decodeString (EncodeInt64Cursor 0) = .ok pa ∧
      decodeString (EncodeInt64Cursor 13) = .ok pb ∧
      pa.length = 8 ∧ pb.length = 8 ∧
      (strLess pa pb = true ↔ twosComplement 0 < twosComplement 13) ∧
      ((0 : Int) ≤ 0 → (0 : Int) < 13 → strLess pa pb = true) :=
  ⟨by decide, by decide, int64_payload_order 0 13 (by decide) (by decide)⟩

/-! ## Operator and keyword -/

/-- C30: in every query composed from a valid order and a cursor that decodes,
the comparison operator of the window and the keyword of `ORDER BY` both come
from the effective order, which is the base order for `DirNext` and its
opposite for `DirPrev`: `>` goes with `ASC` and `<` with `DESC`. -/
theorem operator_and_keyword_agree (base col timeCol idCol : List Nat) (ph : Placeholder)
    (ord : Order) (p : Page) (hord : ord = Ascending ∨ ord = Descending) :
    ∃ (eff : Order) (op kw : List Nat),
      EffectiveOrder ord (EnsureDefaults p).Dir = some eff ∧
      eff = (if (EnsureDefaults p).Dir = DirPrev then
          (if ord = Ascending then Descending else Ascending) else ord) ∧
      ((eff = Ascending ∧ op = str ">" ∧ kw = str "ASC") ∨
        (eff = Descending ∧ op = str "<" ∧ kw = str "DESC")) ∧
      (∀ v, DecodeInt64Cursor p.Cursor = .ok v →
        ∃ J args, QueryByID base p ord col ph =
          some (base ++ J ++ col ++ str " " ++ op ++ str " " ++ ph 1 ++ str " ORDER BY " ++
            col ++ str " " ++ kw ++ str " LIMIT " ++ ph 2, args)) ∧
      (∀ tm, DecodeTimeCursor p.Cursor = .ok tm →
        ∃ J args, QueryByTime base p ord col ph =
          some (base ++ J ++ col ++ str " " ++ op ++ str " " ++ ph 1 ++ str " ORDER BY " ++
            col ++ str " " ++ kw ++ str " LIMIT " ++ ph 2, args)) ∧
      (∀ tm id, DecodeTimeAndInt64Cursor p.Cursor = .ok (tm, id) →
        ∃ J args, QueryByTimeAndID base p ord timeCol idCol ph =
          some (base ++ J ++ windowText timeCol idCol op op (ph 1) (ph 2) (ph 3) ++
            str " ORDER BY " ++ timeCol ++ str " " ++ kw ++ str ", " ++ idCol ++ str " " ++ kw ++
            str " LIMIT " ++ ph 4, args)) := by
  obtain ⟨eff, heff, hdir, hcase⟩ := EffectiveOrder_cases ord (EnsureDefaults p).Dir hord
  have hda : Ascending ≠ Descending := by decide
  have hJ : ∀ cond, appendWhere base cond = appendWhere base [] ++ cond := by
    intro cond
    unfold appendWhere
    split_ifs <;> simp
  rcases hcase with ⟨rfl, hop, hkw⟩ | ⟨rfl, hop, hkw⟩
  · refine ⟨Ascending, str ">", str "ASC", heff, hdir, Or.inl ⟨rfl, rfl, rfl⟩, ?_, ?_, ?_⟩
    · intro v hv
      refine ⟨appendWhere base [], [Arg.int64 v, Arg.int (EnsureDefaults p).Limit], ?_⟩
      rw [QueryByID_window base col ph ord _ p _ v heff hop hv, hJ, hkw]
      simp [List.append_assoc]
    · intro tm hv
      refine ⟨appendWhere base [], [Arg.time tm, Arg.int (EnsureDefaults p).Limit], ?_⟩
      rw [QueryByTime_window base col ph ord _ p _ tm heff hop hv, hJ, hkw]
      simp [List.append_assoc]
    · intro tm id hv
      refine ⟨appendWhere base [],
        [Arg.time tm, Arg.time tm, Arg.int64 id, Arg.int (EnsureDefaults p).Limit], ?_⟩
      rw [QueryByTimeAndID_window base timeCol idCol ph ord _ p tm id heff hv, hJ, hkw]
      simp [hda, List.append_assoc]
  · refine ⟨Descending, str "<", str "DESC", heff, hdir, Or.inr ⟨rfl, rfl, rfl⟩, ?_, ?_, ?_⟩
    · intro v hv
      refine ⟨appendWhere base [], [Arg.int64 v, Arg.int (EnsureDefaults p).Limit], ?_⟩
      rw [QueryByID_window base col ph ord _ p _ v heff hop hv, hJ, hkw]
      simp [List.append_assoc]
    · intro tm hv
      refine ⟨appendWhere base [], [Arg.time tm, Arg.int (EnsureDefaults p).Limit], ?_⟩
      rw [QueryByTime_window base col ph ord _ p _ tm heff hop hv, hJ, hkw]
      simp [List.append_assoc]
    · intro tm id hv
      refine ⟨appendWhere base [],
        [Arg.time tm, Arg.time tm, Arg.int64 id, Arg.int (EnsureDefaults p).Limit], ?_⟩
      rw [QueryByTimeAndID_window base timeCol idCol ph ord _ p tm id heff hv, hJ, hkw]
      simp [List.append_assoc]

/-- C30 at base order Ascending with `DirPrev`. -/
theorem operator_and_keyword_agree_witness :
    (Ascending = Ascending ∨ Ascending = Descending) ∧
    ∃ (eff : Order) (op kw : List Nat),
      EffectiveOrder Ascending (EnsureDefaults (Page.mk (EncodeInt64Cursor 100) 3 DirPrev)).Dir = some eff ∧
      eff = (if (EnsureDefaults (Page.mk (EncodeInt64Cursor 100) 3 DirPrev)).Dir = DirPrev then
          (if Ascending = Ascending then Descending else Ascending) else Ascending) ∧
      ((eff = Ascending ∧ op = str ">" ∧ kw = str "ASC") ∨
        (eff = Descending ∧ op = str "<" ∧ kw = str "DESC")) ∧
      (∀ v, DecodeInt64Cursor (Page.mk (EncodeInt64Cursor 100) 3 DirPrev).Cursor = .ok v →
        ∃ J args, QueryByID exampleBase (Page.mk (EncodeInt64Cursor 100) 3 DirPrev) Ascending (str "id") PlaceholderDollar =
          some (exampleBase ++ J ++ (str "id") ++ str " " ++ op ++ str " " ++ PlaceholderDollar 1 ++ str " ORDER BY " ++
            (str "id") ++ str " " ++ kw ++ str " LIMIT " ++ PlaceholderDollar 2, args)) ∧
      (∀ tm, DecodeTimeCursor (Page.mk (EncodeInt64Cursor 100) 3 DirPrev).Cursor = .ok tm →
        ∃ J args, QueryByTime exampleBase (Page.mk (EncodeInt64Cursor 100) 3 DirPrev) Ascending (str "id") PlaceholderDollar =
          some (exampleBase ++ J ++ (str "id") ++ str " " ++ op ++ str " " ++ PlaceholderDollar 1 ++ str " ORDER BY " ++
            (str "id") ++ str " " ++ kw ++ str " LIMIT " ++ PlaceholderDollar 2, args)) ∧
      (∀ tm id, DecodeTimeAndInt64Cursor (Page.mk (EncodeInt64Cursor 100) 3 DirPrev).Cursor = .ok (tm, id) →
        ∃ J args, QueryByTimeAndID exampleBase (Page.mk (EncodeInt64Cursor 100) 3 DirPrev) Ascending (str "created_at") (str "id") PlaceholderDollar =
          some (exampleBase ++ J ++ windowText (str "created_at") (str "id") op op (PlaceholderDollar 1) (PlaceholderDollar 2) (PlaceholderDollar 3) ++
            str " ORDER BY " ++ (str "created_at") ++ str " " ++ kw ++ str ", " ++ (str "id") ++ str " " ++ kw ++
            str " LIMIT " ++ PlaceholderDollar 4, args)) :=
  ⟨by decide, operator_and_keyword_agree exampleBase (str "id") (str "created_at") (str "id")
    PlaceholderDollar Ascending (Page.mk (EncodeInt64Cursor 100) 3 DirPrev) (by decide)⟩

/-! ## The composite window after an existing `WHERE` -/

/-- C31 does not hold of the code: for the base
`SELECT * FROM posts WHERE tenant_id = 1` and a valid cursor,
`QueryByTimeAndID` appends ` AND (created_at < $1) OR (created_at = $2 AND id < $3)`,
the window without a pair of parentheses around it; read with `AND` binding
tighter than `OR`, a row that fails the base condition and lies in the second
branch is selected.  The GORM scope on a statement that already has a
condition yields the window inside parentheses. -/
theorem composite_window_not_enclosed :
    QueryByTimeAndID exampleBaseWhere ⟨EncodeTimeAndInt64Cursor exampleEpoch 9, 2, DirNext⟩
        Descending (str "created_at") (str "id") PlaceholderDollar =
      some (str ("SELECT * FROM posts WHERE tenant_id = 1 AND (created_at < $1) OR "
        ++ "(created_at = $2 AND id < $3) ORDER BY created_at DESC, id DESC LIMIT $4"),
        [Arg.time exampleEpoch, Arg.time exampleEpoch, Arg.int64 9, Arg.int 2]) ∧
    appendWhere exampleBaseWhere
        (windowText (str "created_at") (str "id") (str "<") (str "<") (str "$1") (str "$2")
          (str "$3")) =
      str " AND (created_at < $1) OR (created_at = $2 AND id < $3)" ∧
    str " AND (created_at < $1) OR (created_at = $2 AND id < $3)" ≠
      str " AND ((created_at < $1) OR (created_at = $2 AND id < $3))" ∧
    unenclosedHolds false (str "<") (str "<") (0 : Int) (5 : Int) 0 0 9 = true ∧
    (PageByTimeAndID exampleDBWhere ⟨EncodeTimeAndInt64Cursor exampleEpoch 9, 2, DirNext⟩
        Descending (str "created_at") (str "id")).map toSQL =
      some (str ("SELECT * FROM posts WHERE tenant_id = $1 AND ((created_at < $2) OR "
        ++ "(created_at = $3 AND id < $4)) ORDER BY created_at DESC, id DESC LIMIT $5"),
        [Arg.int 1, Arg.time exampleEpoch, Arg.time exampleEpoch, Arg.int64 9, Arg.int 2]) := by
  refine ⟨by decide, by decide, by decide, ?_, ?_⟩
  · simp [unenclosedHolds, cmpHolds]
    decide
  · set_option maxRecDepth 8000 in decide

/-! ## Absence of panics -/

/-- C32: when `ord` is Ascending or Descending, for every base text, page,
column names and placeholder function, the defaulted direction is valid, the
effective order exists, is valid and has an inequality operator, and
`QueryByID`, `QueryByTime` and `QueryByTimeAndID` each return a text and bound
values, without panic. -/
theorem composers_do_not_panic (base col timeCol idCol : List Nat) (ph : Placeholder)
    (ord : Order) (p : Page) (hord : ord = Ascending ∨ ord = Descending) :
    ((EnsureDefaults p).Dir = DirNext ∨ (EnsureDefaults p).Dir = DirPrev) ∧
    (∃ eff op, EffectiveOrder ord (EnsureDefaults p).Dir = some eff ∧
      (eff = Ascending ∨ eff = Descending) ∧ InequalityOp eff = some op) ∧
    (∃ text args, QueryByID base p ord col ph = some (text, args)) ∧
    (∃ text args, QueryByTime base p ord col ph = some (text, args)) ∧
    (∃ text args, QueryByTimeAndID base p ord timeCol idCol ph = some (text, args)) := by
  obtain ⟨eff, op, heff, hop, hv⟩ := EffectiveOrder_of_valid ord (EnsureDefaults p).Dir hord
  refine ⟨EnsureDefaults_Dir p, ⟨eff, op, heff, hv, hop⟩, ?_, ?_, ?_⟩
  · cases hdec : DecodeInt64Cursor p.Cursor with
    | ok v => exact ⟨_, _, QueryByID_window base col ph ord eff p op v heff hop hdec⟩
    | error e => exact ⟨_, _, QueryByID_plain base col ph ord eff p heff (Or.inr ⟨e, hdec⟩)⟩
    | panic => exact absurd hdec (DecodeInt64Cursor_ne_panic _)
  · cases hdec : DecodeTimeCursor p.Cursor with
    | ok v => exact ⟨_, _, QueryByTime_window base col ph ord eff p op v heff hop hdec⟩
    | error e => exact ⟨_, _, QueryByTime_plain base col ph ord eff p heff (Or.inr ⟨e, hdec⟩)⟩
    | panic => exact absurd hdec (DecodeTimeCursor_ne_panic _)
  · cases hdec : DecodeTimeAndInt64Cursor p.Cursor with
    | ok v =>
      obtain ⟨tm, id⟩ := v
      exact ⟨_, _, QueryByTimeAndID_window base timeCol idCol ph ord eff p tm id heff hdec⟩
    | error e =>
      exact ⟨_, _, QueryByTimeAndID_plain base timeCol idCol ph ord eff p heff
        (Or.inr ⟨e, hdec⟩)⟩
    | panic => exact absurd hdec (DecodeTimeAndInt64Cursor_ne_panic _)

/-- C32 at a page with an undecodable cursor, limit -5 and direction 99. -/
theorem composers_do_not_panic_witness :
    (Descending = Ascending ∨ Descending = Descending) ∧
    (((EnsureDefaults ⟨str "@@@", -5, 99⟩).Dir = DirNext ∨
      (EnsureDefaults ⟨str "@@@", -5, 99⟩).Dir = DirPrev) ∧
    (∃ eff op, EffectiveOrder Descending (EnsureDefaults ⟨str "@@@", -5, 99⟩).Dir = some eff ∧
      (eff = Ascending ∨ eff = Descending) ∧ InequalityOp eff = some op) ∧
    (∃ text args, QueryByID exampleBase ⟨str "@@@", -5, 99⟩ Descending (str "id")
      PlaceholderDollar = some (text, args)) ∧
    (∃ text args, QueryByTime exampleBase ⟨str "@@@", -5, 99⟩ Descending (str "id")
      PlaceholderDollar = some (text, args)) ∧
    (∃ text args, QueryByTimeAndID exampleBase ⟨str "@@@", -5, 99⟩ Descending
      (str "created_at") (str "id") PlaceholderDollar = some (text, args))) :=
  ⟨by decide, composers_do_not_panic exampleBase (str "id") (str "created_at") (str "id")
    PlaceholderDollar Descending ⟨str "@@@", -5, 99⟩ (by decide)⟩

/-- C33: `EffectiveOrder ord dir` panics exactly when `dir` is `DirPrev` and
`ord` is neither Ascending nor Descending; for every other `dir` it returns
`ord` itself, valid or not. -/
theorem EffectiveOrder_panics_iff (ord : Order) (dir : Dir) :
    (EffectiveOrder ord dir = none ↔
      (dir = DirPrev ∧ ord ≠ Ascending ∧ ord ≠ Descending)) ∧
    (dir ≠ DirPrev → EffectiveOrder ord dir = some ord) ∧
    EffectiveOrder 7 DirNext = some 7 ∧ EffectiveOrder 7 0 = some 7 ∧
    EffectiveOrder 7 DirPrev = none := by
  have hda : Descending ≠ Ascending := by decide
  refine ⟨?_, ?_, by decide, by decide, by decide⟩
  · unfold EffectiveOrder Reverse
    by_cases hd : dir = DirPrev
    · by_cases h1 : ord = Ascending
      · simp [hd, h1]
      · by_cases h2 : ord = Descending
        · simp [hd, h2, hda]
        · simp [hd, h1, h2]
    · simp [hd]
  · intro hd
    simp [EffectiveOrder, hd]

/-! ## Agreement of the adapters -/

/-- C34: for a valid order and a cursor that decodes to `(t, id)`, the window
that `QueryByTimeAndID` emits with `PlaceholderQuestion` is
`StableWhereTimeAndID timeCol idCol eff` and its `ORDER BY` list is
`OrderClause [timeCol, idCol] eff`, with the bound values `[t, t, id, limit]`;
`PageByTimeAndID` adds the same fragment bound to `[t, t, id]`, the same
ordering and the same limit. -/
theorem adapters_agree (base timeCol idCol : List Nat) (ord : Order) (p : Page) (db : GormDB)
    (t : Time) (id : Int) (hord : ord = Ascending ∨ ord = Descending)
    (hdec : DecodeTimeAndInt64Cursor p.Cursor = .ok (t, id)) :
    ∃ eff, EffectiveOrder ord (EnsureDefaults p).Dir = some eff ∧
      (eff = Ascending ∨ eff = Descending) ∧
      QueryByTimeAndID base p ord timeCol idCol PlaceholderQuestion =
        some (base ++ appendWhere base (StableWhereTimeAndID timeCol idCol eff) ++
          str " ORDER BY " ++ OrderClause [timeCol, idCol] eff ++ str " LIMIT " ++ str "?",
          [Arg.time t, Arg.time t, Arg.int64 id, Arg.int (EnsureDefaults p).Limit]) ∧
      PageByTimeAndID db p ord timeCol idCol =
        some (((db.Where (StableWhereTimeAndID timeCol idCol eff)
          [Arg.time t, Arg.time t, Arg.int64 id]).Order
            (OrderClause [timeCol, idCol] eff)).Limit (EnsureDefaults p).Limit) := by
  obtain ⟨eff, op, heff, _, hv⟩ := EffectiveOrder_of_valid ord (EnsureDefaults p).Dir hord
  have hne : p.Cursor ≠ [] := by
    intro h
    rw [h, DecodeTimeAndInt64Cursor_nil] at hdec
    cases hdec
  have hwin : windowText timeCol idCol (if eff = Descending then str "<" else str ">")
      (if eff = Descending then str "<" else str ">") (str "?") (str "?") (str "?") =
      StableWhereTimeAndID timeCol idCol eff := by
    have f1 : str ") OR (" = str ")" ++ str " OR (" := by decide
    have f2 : str " = ? AND " = str " = " ++ (str "?" ++ str " AND ") := by decide
    have f3 : str " ?)" = str " " ++ (str "?" ++ str ")") := by decide
    simp only [StableWhereTimeAndID, windowText, f1, f2, f3, List.append_assoc]
  have hoc : OrderClause [timeCol, idCol] eff =
      timeCol ++ str " " ++ SQLKeyword eff ++ str ", " ++ idCol ++ str " " ++ SQLKeyword eff := by
    simp [OrderClause, OrderClause.loop, List.append_assoc]
  refine ⟨eff, heff, hv, ?_, ?_⟩
  · rw [QueryByTimeAndID_window base timeCol idCol PlaceholderQuestion ord eff p t id heff hdec]
    simp only [PlaceholderQuestion, hwin, hoc, List.append_assoc]
  · simp [PageByTimeAndID, heff, EnsureDefaults_Cursor, hne, hdec]

/-- C34 at the query of the test `AppendWhereWhenBaseHasWhere`. -/
theorem adapters_agree_witness :
    (Descending = Ascending ∨ Descending = Descending) ∧
    DecodeTimeAndInt64Cursor
      (Page.mk (EncodeTimeAndInt64Cursor exampleEpoch 9) 2 DirNext).Cursor =
        .ok (exampleEpoch, 9) ∧
    ∃ eff, EffectiveOrder Descending
        (EnsureDefaults (Page.mk (EncodeTimeAndInt64Cursor exampleEpoch 9) 2 DirNext)).Dir =
          some eff ∧
      (eff = Ascending ∨ eff = Descending) ∧
      QueryByTimeAndID exampleBaseWhere (Page.mk (EncodeTimeAndInt64Cursor exampleEpoch 9) 2 DirNext)
          Descending (str "created_at") (str "id") PlaceholderQuestion =
        some (exampleBaseWhere ++
          appendWhere exampleBaseWhere
            (StableWhereTimeAndID (str "created_at") (str "id") eff) ++
          str " ORDER BY " ++ OrderClause [str "created_at", str "id"] eff ++ str " LIMIT " ++
          str "?",
          [Arg.time exampleEpoch, Arg.time exampleEpoch, Arg.int64 9,
            Arg.int (EnsureDefaults
              (Page.mk (EncodeTimeAndInt64Cursor exampleEpoch 9) 2 DirNext)).Limit]) ∧
      PageByTimeAndID exampleDB (Page.mk (EncodeTimeAndInt64Cursor exampleEpoch 9) 2 DirNext)
          Descending (str "created_at") (str "id") =
        some (((exampleDB.Where (StableWhereTimeAndID (str "created_at") (str "id") eff)
          [Arg.time exampleEpoch, Arg.time exampleEpoch, Arg.int64 9]).Order
            (OrderClause [str "created_at", str "id"] eff)).Limit
              (EnsureDefaults
                (Page.mk (EncodeTimeAndInt64Cursor exampleEpoch 9) 2 DirNext)).Limit) :=
  ⟨by decide, by decide,
    adapters_agree exampleBaseWhere (str "created_at") (str "id") Descending
      (Page.mk (EncodeTimeAndInt64Cursor exampleEpoch 9) 2 DirNext) exampleDB exampleEpoch 9
      (by decide) (by decide)⟩

/-! ## Cursor shapes -/

/-- C35: for every time `t` whose nanoseconds since the epoch fit in an `int64`,
`DecodeInt64Cursor` accepts the time cursor of `t` and returns those
nanoseconds, and `DecodeTimeCursor` accepts the integer cursor of every
`int64`; for every `t` and `id`, `DecodeInt64Cursor` and `DecodeTimeCursor`
reject the composite cursor with `ErrCursorLength`; and
`DecodeTimeAndInt64Cursor` rejects every cursor with a payload of 8 bytes with
`ErrCursorLength`. -/
theorem cursor_shapes_by_length (t : Time) (id : Int) (s b : List Nat) :
    (IsInt64 t.nanosSinceEpoch →
      DecodeInt64Cursor (EncodeTimeCursor t) = .ok t.nanosSinceEpoch) ∧
    (IsInt64 id → DecodeTimeCursor (EncodeInt64Cursor id) = .ok (Unix 0 id).UTC) ∧
    DecodeInt64Cursor (EncodeTimeAndInt64Cursor t id) = .error .ErrCursorLength ∧
    DecodeTimeCursor (EncodeTimeAndInt64Cursor t id) = .error .ErrCursorLength ∧
    (decodeString s = .ok b → b.length = 8 →
      DecodeTimeAndInt64Cursor s = .error .ErrCursorLength) ∧
    DecodeTimeAndInt64Cursor (EncodeInt64Cursor id) = .error .ErrCursorLength ∧
    DecodeTimeAndInt64Cursor (EncodeTimeCursor t) = .error .ErrCursorLength := by
  have h16 : ∀ x ∈ PutUint64 (toUint64 t.UTC.UnixNano) ++ PutUint64 (toUint64 id), x < 256 := by
    intro x hx
    rcases List.mem_append.1 hx with h | h
    · exact PutUint64_lt _ x h
    · exact PutUint64_lt _ x h
  have h8 : ∀ s b, decodeString s = .ok b → b.length = 8 →
      DecodeTimeAndInt64Cursor s = .error .ErrCursorLength := by
    intro s b hs hb
    simp [DecodeTimeAndInt64Cursor, hs, hb]
  refine ⟨?_, ?_, ?_, ?_, h8 s b, ?_, ?_⟩
  · intro hr
    unfold EncodeTimeCursor
    rw [DecodeInt64Cursor_payload _ (toUint64_lt _), toInt64_toUint64 _ (UnixNano_IsInt64 _),
      UnixNano_eq t hr]
  · intro hid
    unfold EncodeInt64Cursor
    rw [DecodeTimeCursor_payload _ (toUint64_lt _), toInt64_toUint64 _ hid]
  · unfold DecodeInt64Cursor EncodeTimeAndInt64Cursor
    rw [decodeString_encodeToString _ h16]
    simp [PutUint64_length]
  · unfold DecodeTimeCursor EncodeTimeAndInt64Cursor
    rw [decodeString_encodeToString _ h16]
    simp [PutUint64_length]
  · exact h8 _ _ (decodeString_encodeToString _ (PutUint64_lt _)) rfl
  · exact h8 _ _ (decodeString_encodeToString _ (PutUint64_lt _)) rfl

end Keyset
